import Mathlib

/-!
Verification of the recording-sync pipeline of the worktv repository.

The definitions below are a shallow embedding of the TypeScript sources:
  - src/lib/gong/transform.ts   (speaker map, transcript flattening, speakers)
  - src/lib/gong/calls.ts       (HTTP client, pagination, rate-limit errors)
  - scripts/sync-gong.ts        (database writes, per-call processing, retry
                                 loop, run orchestration)

JavaScript numbers are modelled as Int (millisecond timestamps) and Rat
(second timestamps obtained by dividing by 1000).  The SQLite database is
modelled as lists of rows; every prepared statement / better-sqlite3
transaction is one atomic commit unit, so a simulated crash can be placed
between any two units but never inside one.
-/

namespace WorkTV

/-! ### Gong API data types (src/types/gong.ts) -/

/-- One time-stamped sentence of a transcript entry.  The source fields are
`start` and `end` (milliseconds); `end` is a Lean keyword so the fields are
named `startMs` / `endMs` here. -/
structure GongSentence where
  startMs : Int
  endMs : Int
  text : String
deriving DecidableEq

/-- One speaker-attributed entry of a Gong transcript. -/
structure GongTranscriptEntry where
  speakerId : String
  sentences : List GongSentence
deriving DecidableEq

/-- A whole call transcript as returned by the batch transcript endpoint. -/
structure GongCallTranscript where
  callId : String
  transcript : List GongTranscriptEntry
deriving DecidableEq

/-- A party (participant) record of a call.  Only the fields the pipeline
reads are modelled; optional JSON fields become `Option`. -/
structure GongParty where
  id : String
  emailAddress : Option String
  name : Option String
  speakerId : Option String
deriving DecidableEq

/-- Media URLs exposed via the content selector. -/
structure GongCallMedia where
  audioUrl : Option String
  videoUrl : Option String
deriving DecidableEq

/-- The call metadata fields the sync pipeline reads.  `media` is the string
union "Video" | "Audio" in the source. -/
structure GongCall where
  id : String
  title : String
  started : String
  duration : Int
  media : String
  purpose : Option String
deriving DecidableEq

/-- An element of `GongCallsListResponse.calls`. -/
structure CallData where
  metaData : GongCall
  parties : Option (List GongParty)
  media : Option GongCallMedia
deriving DecidableEq

/-! ### Domain types (src/types/video.ts, scripts/sync-gong.ts) -/

/-- A normalized transcript segment; times are seconds. -/
structure TranscriptSegment where
  id : String
  startTime : Rat
  endTime : Rat
  speaker : String
  text : String
deriving DecidableEq

/-- A normalized speaker with its palette color. -/
structure Speaker where
  id : String
  name : String
  color : String
deriving DecidableEq

/-! ### JS `Map<string,string>` model

`Map.set` overwrites the value of an existing key and otherwise appends;
`Map.get` returns the latest value set for the key. -/

/-- `Map.set` on an association list. -/
def mapSet (m : List (String × String)) (k v : String) : List (String × String) :=
  if m.any (fun p => p.1 = k) then
    m.map (fun p => if p.1 = k then (k, v) else p)
  else
    m ++ [(k, v)]

/-- `Map.get` on an association list. -/
def mapGet (m : List (String × String)) (k : String) : Option String :=
  (m.find? (fun p => p.1 = k)).map (fun p => p.2)

/-! ### Transcript transformer (src/lib/gong/transform.ts) -/

/-- `party.name ?? party.emailAddress ?? "Unknown"` — JS nullish coalescing. -/
def partyDisplayName (p : GongParty) : String :=
  match p.name with
  | some n => n
  | none =>
    match p.emailAddress with
    | some e => e
    | none => "Unknown"

/-- `buildSpeakerMap`: maps `speakerId` and the party `id` (both under JS
truthiness guards, so empty strings are skipped) to the display name. -/
def buildSpeakerMap (parties : List GongParty) : List (String × String) :=
  parties.foldl
    (fun m party =>
      let m1 :=
        match party.speakerId with
        | some s => if s = "" then m else mapSet m s (partyDisplayName party)
        | none => m
      if party.id = "" then m1 else mapSet m1 party.id (partyDisplayName party))
    []

/-- One flattened segment: `seg-<n>` id, millisecond timestamps divided by
1000, the resolved speaker name, and the sentence text. -/
def sentenceSegment (speakerName : String) (segId : Nat) (s : GongSentence) :
    TranscriptSegment :=
  { id := "seg-" ++ toString segId
    startTime := (s.startMs : Rat) / 1000
    endTime := (s.endMs : Rat) / 1000
    speaker := speakerName
    text := s.text }

/-- Inner loop of `parseGongTranscript`: one segment per sentence, with the
pre-incremented running counter `segId`. -/
def sentenceSegs (speakerName : String) : List GongSentence → Nat → List TranscriptSegment
  | [], _ => []
  | s :: rest, segId =>
    sentenceSegment speakerName (segId + 1) s :: sentenceSegs speakerName rest (segId + 1)

/-- Outer loop of `parseGongTranscript`: resolves each entry's speaker via the
map (`"Speaker"` when unmapped) and flattens its sentences, threading the
segment counter across entries. -/
def entrySegs (speakerMap : List (String × String)) :
    List GongTranscriptEntry → Nat → List TranscriptSegment
  | [], _ => []
  | e :: rest, segId =>
    sentenceSegs ((mapGet speakerMap e.speakerId).getD ("Speaker")) e.sentences segId
      ++ entrySegs speakerMap rest (segId + e.sentences.length)

/-- The ordering used by `segments.sort((a, b) => a.startTime - b.startTime)`. -/
def segLE (a b : TranscriptSegment) : Prop :=
  a.startTime ≤ b.startTime

instance : DecidableRel segLE := fun a b =>
  inferInstanceAs (Decidable (a.startTime ≤ b.startTime))

instance : IsTotal TranscriptSegment segLE :=
  ⟨fun a b => le_total a.startTime b.startTime⟩

instance : IsTrans TranscriptSegment segLE :=
  ⟨fun _ _ _ hab hbc => le_trans hab hbc⟩

/-- `parseGongTranscript`: flatten the nested entry→sentence structure and
sort by start time.  `Array.prototype.sort` is a stable sort; it is modelled
by the stable `List.insertionSort`, whose output any stable sort by this key
produces. -/
def parseGongTranscript (t : GongCallTranscript)
    (speakerMap : List (String × String)) : List TranscriptSegment :=
  List.insertionSort segLE (entrySegs speakerMap t.transcript 0)

/-- `SPEAKER_COLORS` (src/lib/constants.ts): the fixed ten-color palette. -/
def SPEAKER_COLORS : List String :=
  ["#6366f1", "#22c55e", "#f59e0b", "#ef4444", "#8b5cf6",
   "#06b6d4", "#ec4899", "#14b8a6", "#f97316", "#84cc16"]

/-- Replace every maximal run of whitespace by a single dash — the
`.replace(/\s+/g, "-")` part of the speaker-id derivation.  The flag records
whether the previous character was inside a whitespace run. -/
def replaceWsRunsAux : Bool → List Char → List Char
  | _, [] => []
  | inRun, c :: rest =>
    if c.isWhitespace then
      if inRun then replaceWsRunsAux true rest
      else '-' :: replaceWsRunsAux true rest
    else c :: replaceWsRunsAux false rest

def replaceWsRuns (l : List Char) : List Char :=
  replaceWsRunsAux false l

/-- `s.toLowerCase()`, modelled characterwise. -/
def jsToLower (s : String) : String :=
  String.mk (s.data.map Char.toLower)

/-- `name.toLowerCase().replace(/\s+/g, "-")`. -/
def slugify (name : String) : String :=
  String.mk (replaceWsRuns (name.data.map Char.toLower))

/-- `[...new Set(l)]`: JS `Set` iteration order is first insertion order, so
this keeps the first occurrence of every element; `seen` is the set contents
so far. -/
def uniqueFirstSeenAux (seen : List String) : List String → List String
  | [] => []
  | x :: xs =>
    if x ∈ seen then uniqueFirstSeenAux seen xs
    else x :: uniqueFirstSeenAux (seen ++ [x]) xs

def uniqueFirstSeen (l : List String) : List String :=
  uniqueFirstSeenAux [] l

/-- `names.map((name, i) => ...)` — map with the element index. -/
def mapWithIndex (f : Nat → String → Speaker) : Nat → List String → List Speaker
  | _, [] => []
  | i, x :: xs => f i x :: mapWithIndex f (i + 1) xs

/-- `extractSpeakers`: first-seen unique speaker names of the segments, each
assigned the palette color at its index modulo the palette length. -/
def extractSpeakers (segments : List TranscriptSegment) : List Speaker :=
  let speakerNames := uniqueFirstSeen (segments.map (fun s => s.speaker))
  mapWithIndex
    (fun i name =>
      { id := slugify name
        name := name
        color := SPEAKER_COLORS.getD (i % SPEAKER_COLORS.length) ("") })
    0 speakerNames

/-- `extractSpeakersFromParties`: party display names (name, else email),
with JS-falsy (missing or empty) names dropped, deduplicated first-seen, and
colored from the palette.  The sync script never calls this. -/
def extractSpeakersFromParties (parties : List GongParty) : List Speaker :=
  let names :=
    ((parties.map (fun p => (p.name.orElse (fun _ => p.emailAddress)))).filterMap id).filter
      (fun n => decide (n ≠ ""))
  let uniqueNames := uniqueFirstSeen names
  mapWithIndex
    (fun i name =>
      { id := slugify name
        name := name
        color := SPEAKER_COLORS.getD (i % SPEAKER_COLORS.length) ("") })
    0 uniqueNames

/-! ### Gong API client (src/lib/gong/calls.ts)

The network is abstracted: `gongFetch` is modelled as the pure response
dispatch that the source performs on an `HttpResponse`, and the paginated /
batched endpoints are modelled against oracle functions standing for the
provider. -/

/-- JS `parseInt(s, 10)`: skip leading whitespace, optional sign, then the
longest digit prefix; `none` models the `NaN` result when no digit follows. -/
def jsParseInt (s : String) : Option Int :=
  let chars := s.data.dropWhile Char.isWhitespace
  let signAndRest : Int × List Char :=
    match chars with
    | c :: cs => if c = '-' then (-1, cs) else if c = '+' then (1, cs) else (1, chars)
    | [] => (1, [])
  let digits := signAndRest.2.takeWhile (fun c => c.isDigit)
  if digits = [] then none
  else
    some (signAndRest.1 * ((digits.foldl (fun acc c => acc * 10 + (c.toNat - 48)) 0 : Nat) : Int))

/-- The response data `gongFetch` inspects: status, the `Retry-After` header
(`none` when absent), and the body text. -/
structure HttpResponse where
  status : Nat
  retryAfter : Option String
  body : String
deriving DecidableEq

/-- The two failure shapes of `gongFetch`: `GongRateLimitError` with its
`retryAfterSeconds` payload (`none` models `NaN` from a non-numeric header),
and the generic `Gong API error` carrying status and body. -/
inductive GongFetchError
  | rateLimit (retryAfterSeconds : Option Int)
  | apiError (status : Nat) (body : String)
deriving DecidableEq

/-- `retryAfter ? parseInt(retryAfter, 10) : 60` — the header string is JS
falsy when absent or empty, in which case the default 60 is used. -/
def retryAfterValue (header : Option String) : Option Int :=
  match header with
  | none => some 60
  | some s => if s = "" then some 60 else jsParseInt s

/-- The response dispatch of `gongFetch`: 429 throws `GongRateLimitError`,
any other non-2xx throws the generic API error, 2xx succeeds with the body
(`response.ok` is status 200–299). -/
def gongFetch (resp : HttpResponse) : Except GongFetchError String :=
  if resp.status = 429 then
    Except.error (GongFetchError.rateLimit (retryAfterValue resp.retryAfter))
  else if 200 ≤ resp.status ∧ resp.status ≤ 299 then
    Except.ok resp.body
  else
    Except.error (GongFetchError.apiError resp.status resp.body)

/-! #### Pagination (`listAllCalls`) -/

/-- One page of the list endpoint: the `calls` items together with
`records.cursor` (`none` when the field is absent). -/
structure GongPage (α : Type) where
  items : List α
  cursor : Option String
deriving DecidableEq

/-- The do/while loop of `listAllCalls`, with the provider abstracted as a
`fetch` oracle from the requested cursor to the returned page, and fuel
bounding the number of iterations (the loop itself has no bound).  Returns
the accumulated items together with the trace of cursors requested, or
`none` if the fuel ran out before the loop terminated.  The loop continues
exactly while the returned cursor is JS-truthy (present and non-empty). -/
def listAllCallsGo (fetch : Option String → GongPage α) :
    Nat → Option String → Option (List α × List (Option String))
  | 0, _ => none
  | fuel + 1, cur =>
    let resp := fetch cur
    match resp.cursor with
    | none => some (resp.items, [cur])
    | some c =>
      if c = "" then some (resp.items, [cur])
      else
        (listAllCallsGo fetch fuel (some c)).map
          (fun rest => (resp.items ++ rest.1, cur :: rest.2))

/-- `listAllCalls`: start the pagination loop with no cursor. -/
def listAllCalls (fetch : Option String → GongPage α) (fuel : Nat) :
    Option (List α × List (Option String)) :=
  listAllCallsGo fetch fuel none

/-- A finite chain of provider pages: requesting `cur` returns the head page,
every non-final page carries a non-empty `some` cursor leading to the next
page, and the final page's cursor is absent or empty. -/
inductive PageChain (fetch : Option String → GongPage α) :
    Option String → List (GongPage α) → Prop
  | last (cur : Option String) (p : GongPage α) :
      fetch cur = p → (p.cursor = none ∨ p.cursor = some "") →
      PageChain fetch cur [p]
  | step (cur : Option String) (p : GongPage α) (c : String) (ps : List (GongPage α)) :
      fetch cur = p → p.cursor = some c → c ≠ "" →
      PageChain fetch (some c) ps →
      PageChain fetch cur (p :: ps)

/-! #### Transcript batch retry loop (scripts/sync-gong.ts, `sync`) -/

/-- Outcome of one transcript batch fetch attempt, as seen by the retry
loop: success with the decoded transcripts, a `GongRateLimitError` with its
retry-after seconds, or any other thrown error. -/
inductive FetchOutcome (α : Type)
  | success (value : α)
  | rateLimited (retryAfterSeconds : Int)
  | failure
deriving DecidableEq

/-- How the retry loop for one batch ends: transcripts fetched, the batch
skipped after a non-rate-limit error, or the whole run aborted by
re-throwing the rate-limit error once the retry cap is exceeded. -/
inductive BatchResult (α : Type)
  | fetched (value : α)
  | skippedBatch
  | abortedRun (retryAfterSeconds : Int)
deriving DecidableEq

/-- Observable trace of the retry loop for one batch: its result, the
milliseconds slept between attempts (`sleep(error.retryAfterSeconds * 1000)`),
and the number of fetch attempts performed. -/
structure BatchTrace (α : Type) where
  result : BatchResult α
  sleepsMs : List Int
  attempts : Nat
deriving DecidableEq

def TRANSCRIPT_BATCH_SIZE : Nat := 50

def MAX_RETRIES_PER_BATCH : Nat := 3

/-- The `while (retryCount < MAX_RETRIES_PER_BATCH)` loop for one batch.
`attemptIdx` numbers the attempts (the oracle maps it to that attempt's
outcome) and `remaining = MAX_RETRIES_PER_BATCH - retryCount`.  On a
rate-limit error the counter is incremented first; if it reaches the cap the
error is re-thrown (aborting the run), otherwise the loop sleeps the
signalled seconds and retries.  Any other error skips the batch; the
`remaining = 0` base case is the loop guard failing, which in the source
falls through with the batch absent, indistinguishable from a skip. -/
def batchLoop (oracle : Nat → FetchOutcome α) : Nat → Nat → BatchTrace α
  | _, 0 => { result := BatchResult.skippedBatch, sleepsMs := [], attempts := 0 }
  | attemptIdx, remaining + 1 =>
    match oracle attemptIdx with
    | FetchOutcome.success v =>
      { result := BatchResult.fetched v, sleepsMs := [], attempts := 1 }
    | FetchOutcome.failure =>
      { result := BatchResult.skippedBatch, sleepsMs := [], attempts := 1 }
    | FetchOutcome.rateLimited ra =>
      if remaining = 0 then
        { result := BatchResult.abortedRun ra, sleepsMs := [], attempts := 1 }
      else
        let t := batchLoop oracle (attemptIdx + 1) remaining
        { result := t.result, sleepsMs := ra * 1000 :: t.sleepsMs, attempts := t.attempts + 1 }

/-- The retry loop for one batch, started at the full retry budget. -/
def fetchBatch (oracle : Nat → FetchOutcome α) : BatchTrace α :=
  batchLoop oracle 0 MAX_RETRIES_PER_BATCH

/-! ### Database model (scripts/sync-gong.ts + src/lib/db/schema.sql)

Each table is a list of rows.  Timestamps handled as `Date` values in the
source (`synced_at`, `media_url_expires_at`, `Date.now()`) are modelled as
`Int` milliseconds; `created_at` is stored as the provider's ISO string. -/

structure RecordingRow where
  id : String
  title : String
  description : Option String
  videoUrl : String
  duration : Int
  space : String
  source : String
  mediaType : String
  mediaUrlExpiresAt : Option Int
  createdAt : String
  syncedAt : Int
deriving DecidableEq

structure SegmentRow where
  id : String
  recordingId : String
  startTime : Rat
  endTime : Rat
  speaker : String
  text : String
deriving DecidableEq

structure SpeakerRow where
  id : String
  recordingId : String
  name : String
  color : String
deriving DecidableEq

structure VideoFileRow where
  id : String
  recordingId : String
deriving DecidableEq

structure ChatMessageRow where
  id : String
  recordingId : String
deriving DecidableEq

structure DbState where
  recordings : List RecordingRow
  segments : List SegmentRow
  speakers : List SpeakerRow
  videoFiles : List VideoFileRow
  chatMessages : List ChatMessageRow
deriving DecidableEq

/-- One SQL statement executed by the script.  `upsertRec` is the
`INSERT OR REPLACE` of `upsertRecording`; the four deletes are the four
statements of `deleteRecordingData`; the two inserts are the per-row
statements inside `insertSegments` / `insertSpeakers`. -/
inductive DbWrite
  | upsertRec (r : RecordingRow)
  | delSegments (recordingId : String)
  | delSpeakers (recordingId : String)
  | delVideoFiles (recordingId : String)
  | delChatMessages (recordingId : String)
  | insSegment (row : SegmentRow)
  | insSpeaker (row : SpeakerRow)
deriving DecidableEq

def applyWrite (db : DbState) : DbWrite → DbState
  | DbWrite.upsertRec r =>
    { db with recordings := db.recordings.filter (fun x => decide (x.id ≠ r.id)) ++ [r] }
  | DbWrite.delSegments rid =>
    { db with segments := db.segments.filter (fun s => decide (s.recordingId ≠ rid)) }
  | DbWrite.delSpeakers rid =>
    { db with speakers := db.speakers.filter (fun s => decide (s.recordingId ≠ rid)) }
  | DbWrite.delVideoFiles rid =>
    { db with videoFiles := db.videoFiles.filter (fun v => decide (v.recordingId ≠ rid)) }
  | DbWrite.delChatMessages rid =>
    { db with chatMessages := db.chatMessages.filter (fun c => decide (c.recordingId ≠ rid)) }
  | DbWrite.insSegment row => { db with segments := db.segments ++ [row] }
  | DbWrite.insSpeaker row => { db with speakers := db.speakers ++ [row] }

/-- One atomic commit unit (a single statement outside an explicit
transaction, or one `db.transaction` containing several statements). -/
def applyUnit (db : DbState) (u : List DbWrite) : DbState :=
  u.foldl applyWrite db

/-- Apply a sequence of commit units.  A simulated crash after the k-th unit
leaves the state `applyUnits db (units.take k)`: units commit atomically, so
no state inside a unit is ever observable. -/
def applyUnits (db : DbState) (us : List (List DbWrite)) : DbState :=
  us.foldl applyUnit db

/-- The fields of the record literal passed to `upsertRecording`. -/
structure RecordingInput where
  id : String
  title : String
  description : Option String
  videoUrl : String
  duration : Int
  space : String
  source : String
  mediaType : String
  mediaUrlExpiresAt : Option Int
  createdAt : String
deriving DecidableEq

/-- `upsertRecording`: a single `INSERT OR REPLACE` statement (one unit),
stamping `synced_at` with the current time. -/
def upsertRecordingUnits (now : Int) (rec : RecordingInput) : List (List DbWrite) :=
  [[DbWrite.upsertRec
      { id := rec.id, title := rec.title, description := rec.description,
        videoUrl := rec.videoUrl, duration := rec.duration, space := rec.space,
        source := rec.source, mediaType := rec.mediaType,
        mediaUrlExpiresAt := rec.mediaUrlExpiresAt, createdAt := rec.createdAt,
        syncedAt := now }]]

/-- `deleteRecordingData`: four separate statements, each its own implicit
transaction, hence four units. -/
def deleteRecordingDataUnits (recordingId : String) : List (List DbWrite) :=
  [[DbWrite.delSegments recordingId],
   [DbWrite.delSpeakers recordingId],
   [DbWrite.delVideoFiles recordingId],
   [DbWrite.delChatMessages recordingId]]

/-- The segment rows `insertSegments` produces: ids prefixed with the
recording id. -/
def segmentRows (recordingId : String) (segments : List TranscriptSegment) :
    List SegmentRow :=
  segments.map (fun seg =>
    { id := recordingId ++ "-" ++ seg.id, recordingId := recordingId,
      startTime := seg.startTime, endTime := seg.endTime,
      speaker := seg.speaker, text := seg.text })

/-- The speaker rows `insertSpeakers` produces. -/
def speakerRows (recordingId : String) (speakers : List Speaker) :
    List SpeakerRow :=
  speakers.map (fun spk =>
    { id := recordingId ++ "-" ++ spk.id, recordingId := recordingId,
      name := spk.name, color := spk.color })

/-- `insertSegments`: all per-row inserts wrapped in one `db.transaction`,
hence a single unit. -/
def insertSegmentsUnits (recordingId : String) (segments : List TranscriptSegment) :
    List (List DbWrite) :=
  [(segmentRows recordingId segments).map DbWrite.insSegment]

/-- `insertSpeakers`: all per-row inserts in one `db.transaction`. -/
def insertSpeakersUnits (recordingId : String) (speakers : List Speaker) :
    List (List DbWrite) :=
  [(speakerRows recordingId speakers).map DbWrite.insSpeaker]

/-- `SELECT synced_at FROM recordings WHERE id = ?`. -/
def recFind (db : DbState) (recordingId : String) : Option RecordingRow :=
  db.recordings.find? (fun r => decide (r.id = recordingId))

/-- `isRecentlySynced`: the row exists and its `synced_at` is strictly after
one hour before now. -/
def isRecentlySynced (db : DbState) (recordingId : String) (now : Int) : Bool :=
  match recFind db recordingId with
  | none => false
  | some row => decide (now - 60 * 60 * 1000 < row.syncedAt)

/-! ### Per-call processing (scripts/sync-gong.ts, `processCall`) -/

/-- The record returned by `processCall`. -/
structure SyncResult where
  synced : Bool
  skipped : Bool
  title : String
deriving DecidableEq

/-- The result of one per-call step together with the commit units it issued
(in order). -/
structure ProcessOutcome where
  result : SyncResult
  units : List (List DbWrite)
deriving DecidableEq

def MEDIA_URL_EXPIRY_HOURS : Int := 8

/-- `transcriptMap.get(call.id)` on the association-list model of the map. -/
def lookupTranscript (m : List (String × GongCallTranscript)) (callId : String) :
    Option GongCallTranscript :=
  (m.find? (fun p => decide (p.1 = callId))).map (fun p => p.2)

/-- `isVideo ? media?.videoUrl : media?.audioUrl`, including the JS-truthiness
check `if (!mediaUrl)`: an empty-string URL counts as unresolvable. -/
def resolvedMediaUrl (callData : CallData) : Option String :=
  let u :=
    if callData.metaData.media = "Video" then
      callData.media.bind (fun m => m.videoUrl)
    else
      callData.media.bind (fun m => m.audioUrl)
  match u with
  | none => none
  | some s => if s = "" then none else some s

/-- The segments `processCall` computes: parse the transcript when it exists
and has at least one entry, else the empty list. -/
def callSegments (callData : CallData) (transcriptMap : List (String × GongCallTranscript)) :
    List TranscriptSegment :=
  match lookupTranscript transcriptMap callData.metaData.id with
  | some t =>
    if 0 < t.transcript.length then
      parseGongTranscript t (buildSpeakerMap (callData.parties.getD []))
    else []
  | none => []

/-- The speakers `processCall` computes — always derived from the parsed
segments, never from the party records. -/
def callSpeakers (callData : CallData) (transcriptMap : List (String × GongCallTranscript)) :
    List Speaker :=
  extractSpeakers (callSegments callData transcriptMap)

/-- `processCall`: skip when recently synced (unless forced); warn-and-return
with no writes when the media URL is unresolvable; otherwise upsert the
recording, delete the four child tables, and bulk-insert the new segments
and speakers (each bulk insert only when non-empty). -/
def processCall (db : DbState) (now : Int) (callData : CallData)
    (transcriptMap : List (String × GongCallTranscript)) (force : Bool) :
    ProcessOutcome :=
  let call := callData.metaData
  let recordingId := "gong_" ++ call.id
  if !force && isRecentlySynced db recordingId now then
    { result := { synced := false, skipped := true, title := call.title }, units := [] }
  else
    match resolvedMediaUrl callData with
    | none =>
      { result := { synced := false, skipped := false, title := call.title }, units := [] }
    | some mediaUrl =>
      let mediaUrlExpiresAt := now + MEDIA_URL_EXPIRY_HOURS * 60 * 60 * 1000
      let segments := callSegments callData transcriptMap
      let speakers := callSpeakers callData transcriptMap
      let recInput : RecordingInput :=
        { id := recordingId
          title := if call.title = "" then "Untitled Call" else call.title
          description := call.purpose
          videoUrl := mediaUrl
          duration := call.duration
          space := "Gong Calls"
          source := "gong"
          mediaType := jsToLower call.media
          mediaUrlExpiresAt := some mediaUrlExpiresAt
          createdAt := call.started }
      let units :=
        upsertRecordingUnits now recInput
          ++ deleteRecordingDataUnits recordingId
          ++ (if 0 < segments.length then insertSegmentsUnits recordingId segments else [])
          ++ (if 0 < speakers.length then insertSpeakersUnits recordingId speakers else [])
      { result := { synced := true, skipped := false, title := call.title }, units := units }

/-- The `for (const call of calls)` loop of `sync`: process each call against
the current state, applying its commit units before the next call.  Returns
the final state and, per call, the `processCall` result with its units. -/
def runCalls (db : DbState) (now : Int) (transcriptMap : List (String × GongCallTranscript))
    (force : Bool) : List CallData → DbState × List (SyncResult × List (List DbWrite))
  | [] => (db, [])
  | c :: rest =>
    let out := processCall db now c transcriptMap force
    let db1 := applyUnits db out.units
    let r := runCalls db1 now transcriptMap force rest
    (r.1, (out.result, out.units) :: r.2)

/-- The run-end summary: counts of synced, skipped, and failed
(`!r.synced && !r.skipped`) calls. -/
def summarize (results : List SyncResult) : Nat × Nat × Nat :=
  (results.countP (fun r => r.synced),
   results.countP (fun r => r.skipped),
   results.countP (fun r => !r.synced && !r.skipped))

/-! ### Run orchestration (scripts/sync-gong.ts, `sync`) -/

/-- `calls.slice(i, i + TRANSCRIPT_BATCH_SIZE)` stepped by the batch size:
the chunks of the call list. -/
def chunkList (l : List CallData) : List (List CallData) :=
  if l = [] then []
  else l.take TRANSCRIPT_BATCH_SIZE :: chunkList (l.drop TRANSCRIPT_BATCH_SIZE)
termination_by l.length
decreasing_by
  rename_i h
  have hlen : 0 < l.length := List.length_pos.mpr h
  have hb : 0 < TRANSCRIPT_BATCH_SIZE := by decide
  simp only [List.length_drop]
  omega

/-- `transcriptMap.set(transcript.callId, transcript)` over a batch result. -/
def tmapInsertAll (m : List (String × GongCallTranscript)) (ts : List GongCallTranscript) :
    List (String × GongCallTranscript) :=
  ts.foldl
    (fun acc t =>
      if acc.any (fun p => p.1 = t.callId) then
        acc.map (fun p => if p.1 = t.callId then (t.callId, t) else p)
      else acc ++ [(t.callId, t)])
    m

/-- Observable outcome of the transcript-fetch phase: the transcript map
built so far, all backoff sleeps, the number of fetch attempts, and `some ra`
when a batch exceeded the retry cap and the rate-limit error was re-thrown
(which aborts the whole run at that point). -/
structure PhaseResult where
  transcriptMap : List (String × GongCallTranscript)
  sleepsMs : List Int
  requests : Nat
  aborted : Option Int
deriving DecidableEq

/-- The batch loop of `sync` over the chunks of the call list.  `oracles j`
is the attempt oracle for chunk `j`.  A fetched batch merges its transcripts
into the map; a skipped batch contributes nothing; an aborted batch stops
the phase (the throw propagates out of `sync`). -/
def transcriptPhaseGo (oracles : Nat → Nat → FetchOutcome (List GongCallTranscript))
    (j : Nat) (tmap : List (String × GongCallTranscript)) :
    List (List CallData) → PhaseResult
  | [] => { transcriptMap := tmap, sleepsMs := [], requests := 0, aborted := none }
  | _chunk :: rest =>
    let t := fetchBatch (oracles j)
    match t.result with
    | BatchResult.fetched ts =>
      let pr := transcriptPhaseGo oracles (j + 1) (tmapInsertAll tmap ts) rest
      { transcriptMap := pr.transcriptMap, sleepsMs := t.sleepsMs ++ pr.sleepsMs,
        requests := t.attempts + pr.requests, aborted := pr.aborted }
    | BatchResult.skippedBatch =>
      let pr := transcriptPhaseGo oracles (j + 1) tmap rest
      { transcriptMap := pr.transcriptMap, sleepsMs := t.sleepsMs ++ pr.sleepsMs,
        requests := t.attempts + pr.requests, aborted := pr.aborted }
    | BatchResult.abortedRun ra =>
      { transcriptMap := tmap, sleepsMs := t.sleepsMs, requests := t.attempts,
        aborted := some ra }

/-- The transcript phase of `sync`, started at chunk 0 with an empty map. -/
def transcriptPhase (oracles : Nat → Nat → FetchOutcome (List GongCallTranscript))
    (calls : List CallData) : PhaseResult :=
  transcriptPhaseGo oracles 0 [] (chunkList calls)

/-- How the `listAllCalls` call of `sync` turns out, as seen by its
try/catch: a call list, a rate-limit error (caught: logged and the run
returns normally), or any other error (re-thrown). -/
inductive ListCallsResult
  | ok (calls : List CallData)
  | rateLimitErr (retryAfterSeconds : Int)
  | otherErr

/-- The inputs of one `sync()` invocation: whether `isGongConfigured()`
holds, the `--force` flag, the provider behaviour for listing and for each
transcript batch, the initial database, and the run's clock. -/
structure SyncEnv where
  gongConfigured : Bool
  forceFlag : Bool
  listResult : ListCallsResult
  batchOracle : Nat → Nat → FetchOutcome (List GongCallTranscript)
  db : DbState
  now : Int

/-- Observable trace of one `sync()` invocation. `providerRequests` counts
provider round trips (the whole listing as one, plus one per batch attempt);
`crashedWithError` is whether `sync()` rejected, in which case the top-level
catch calls `process.exit(1)`; `summary` is the run-end synced/skipped/failed
report, absent when the run ended before the processing loop. -/
structure RunTrace where
  providerRequests : Nat
  dbUnits : List (List DbWrite)
  finalDb : DbState
  summary : Option (Nat × Nat × Nat)
  crashedWithError : Bool

/-- The `sync` function: missing credentials log a warning and return
normally before any provider request or database access; a rate-limit error
from listing is caught and the run returns normally; any other listing error
is re-thrown; an empty call list returns; otherwise the transcript phase
runs (re-throwing on an exceeded retry cap) and then every call is
processed and the summary printed. -/
def syncModel (env : SyncEnv) : RunTrace :=
  if env.gongConfigured = false then
    { providerRequests := 0, dbUnits := [], finalDb := env.db, summary := none,
      crashedWithError := false }
  else
    match env.listResult with
    | ListCallsResult.rateLimitErr _ =>
      { providerRequests := 1, dbUnits := [], finalDb := env.db, summary := none,
        crashedWithError := false }
    | ListCallsResult.otherErr =>
      { providerRequests := 1, dbUnits := [], finalDb := env.db, summary := none,
        crashedWithError := true }
    | ListCallsResult.ok calls =>
      if calls.length = 0 then
        { providerRequests := 1, dbUnits := [], finalDb := env.db, summary := none,
          crashedWithError := false }
      else
        let pr := transcriptPhase env.batchOracle calls
        match pr.aborted with
        | some _ =>
          { providerRequests := 1 + pr.requests, dbUnits := [], finalDb := env.db,
            summary := none, crashedWithError := true }
        | none =>
          let run := runCalls env.db env.now pr.transcriptMap env.forceFlag calls
          { providerRequests := 1 + pr.requests
            dbUnits := (run.2.map (fun r => r.2)).flatten
            finalDb := run.1
            summary := some (summarize (run.2.map (fun r => r.1)))
            crashedWithError := false }

/-! ### Table projections used to state the claims -/

/-- The segment rows stored for one recording. -/
def segmentsFor (db : DbState) (recordingId : String) : List SegmentRow :=
  db.segments.filter (fun s => decide (s.recordingId = recordingId))

/-- The speaker rows stored for one recording. -/
def speakersFor (db : DbState) (recordingId : String) : List SpeakerRow :=
  db.speakers.filter (fun s => decide (s.recordingId = recordingId))

/-- The video-file rows stored for one recording. -/
def videoFilesFor (db : DbState) (recordingId : String) : List VideoFileRow :=
  db.videoFiles.filter (fun v => decide (v.recordingId = recordingId))

/-- The chat-message rows stored for one recording. -/
def chatMessagesFor (db : DbState) (recordingId : String) : List ChatMessageRow :=
  db.chatMessages.filter (fun c => decide (c.recordingId = recordingId))

/-! ### Specification-side definition for the speaker-dedup refinement

The spec describes `extractSpeakers` as taking the unique speaker names in
first-seen order.  This is that description written directly as a left fold
(append a name the first time it is seen, skip it afterwards); the
refinement theorem compares the source-derived `uniqueFirstSeen` against
it. -/
def firstSeenUniqueSpec (l : List String) : List String :=
  l.foldl (fun acc x => if x ∈ acc then acc else acc ++ [x]) []

/-! ### Concrete data for witnesses and counterexamples -/

def dbEmpty : DbState :=
  { recordings := [], segments := [], speakers := [], videoFiles := [], chatMessages := [] }

/-- A video call with a resolvable media URL. -/
def cdEx : CallData :=
  { metaData :=
      { id := "42", title := "Weekly", started := "2026-01-01T00:00:00Z",
        duration := 600, media := "Video", purpose := none }
    parties := some []
    media := some { audioUrl := none, videoUrl := some ("https://m/v.mp4") } }

/-- A call whose reported media kind is Video but whose media URLs are
absent, so its media URL cannot be resolved. -/
def cdC7 : CallData :=
  { metaData :=
      { id := "77", title := "NoMedia", started := "2026-01-02T00:00:00Z",
        duration := 60, media := "Video", purpose := none }
    parties := some []
    media := some { audioUrl := some ("https://m/a.mp3"), videoUrl := none } }

/-- A call with a transcript and parties, used for the crash analysis. -/
def cdC1 : CallData :=
  { metaData :=
      { id := "c1", title := "CrashCase", started := "2026-01-03T00:00:00Z",
        duration := 120, media := "Video", purpose := none }
    parties := some
      [{ id := "p1", emailAddress := none, name := some ("Alice"), speakerId := some ("sp1") }]
    media := some { audioUrl := none, videoUrl := some ("https://m/c1.mp4") } }

/-- The transcript map carrying a two-sentence transcript for `cdC1`. -/
def tmC1 : List (String × GongCallTranscript) :=
  [("c1",
    { callId := "c1"
      transcript :=
        [{ speakerId := "sp1"
           sentences := [{ startMs := 1000, endMs := 2000, text := "hello" }] }] })]

/-- An example transcript with a tie on start time across two entries and an
unmapped speaker, exercising sorting, stability and the default name. -/
def tEx : GongCallTranscript :=
  { callId := "t1"
    transcript :=
      [{ speakerId := "s1"
         sentences :=
           [{ startMs := 2000, endMs := 3000, text := "b" },
            { startMs := 1000, endMs := 1500, text := "a" }] },
       { speakerId := "s2"
         sentences := [{ startMs := 1000, endMs := 1200, text := "c" }] }] }

def mapEx : List (String × String) := [("s1", "Alice")]

/-- Eleven segments with eleven distinct speakers, to exercise the palette
wrap-around. -/
def segs11 : List TranscriptSegment :=
  (["A", "B", "C", "D", "E", "F", "G", "H", "I", "J", "K"]).map
    (fun n => { id := "s", startTime := 0, endTime := 0, speaker := n, text := "" })

/-- A three-page provider for the pagination witness: the last page carries
an empty cursor. -/
def fetchEx : Option String → GongPage String := fun cur =>
  if cur = some ("B") then { items := ["i3"], cursor := some ("C") }
  else if cur = some ("C") then { items := ["i4"], cursor := some ("") }
  else if cur = none then { items := ["i1", "i2"], cursor := some ("B") }
  else { items := [], cursor := none }

def pagesEx : List (GongPage String) :=
  [{ items := ["i1", "i2"], cursor := some ("B") },
   { items := ["i3"], cursor := some ("C") },
   { items := ["i4"], cursor := some ("") }]

/-- Batch oracle: rate-limited twice, then successful. -/
def oEx : Nat → FetchOutcome (List GongCallTranscript) := fun n =>
  if n = 0 then FetchOutcome.rateLimited 2
  else if n = 1 then FetchOutcome.rateLimited 7
  else FetchOutcome.success []

/-- Batch oracle: rate-limited on every attempt. -/
def oRL : Nat → FetchOutcome (List GongCallTranscript) := fun _ =>
  FetchOutcome.rateLimited 5

/-- Batch oracle: a non-rate-limit error on the first attempt. -/
def oFail : Nat → FetchOutcome (List GongCallTranscript) := fun _ =>
  FetchOutcome.failure

/-- A database holding transcript data for the recording of `cdC10`. -/
def dbC10 : DbState :=
  { recordings := []
    segments := [{ id := "gong_w10-seg-1", recordingId := "gong_w10",
                   startTime := 0, endTime := 1, speaker := "Old", text := "old" }]
    speakers := [{ id := "gong_w10-old", recordingId := "gong_w10",
                   name := "Old", color := "#fff" }]
    videoFiles := [{ id := "vf1", recordingId := "gong_w10" }]
    chatMessages := [{ id := "cm1", recordingId := "gong_w10" }] }

/-- An audio call with media but no transcript, whose parties would yield a
speaker under the party fallback. -/
def cdC10 : CallData :=
  { metaData :=
      { id := "w10", title := "Stale", started := "2026-01-04T00:00:00Z",
        duration := 30, media := "Audio", purpose := none }
    parties := some [{ id := "p1", emailAddress := some ("a@b.c"),
                       name := some ("Alice"), speakerId := none }]
    media := some { audioUrl := some ("https://m/a.mp3"), videoUrl := none } }

/-- A sync invocation with Gong credentials missing. -/
def envC9 : SyncEnv :=
  { gongConfigured := false, forceFlag := false,
    listResult := ListCallsResult.ok [], batchOracle := fun _ => oFail,
    db := dbEmpty, now := 0 }

/-! ## Theorems -/

/-! ### C6: rate-limit vs generic API errors in `gongFetch` -/

/-- C6.  Every 429 response surfaces as `GongRateLimitError` carrying the
provider-supplied `Retry-After` seconds (60 when the header is absent);
the rate-limit error arises only for status 429; every other non-2xx
response fails with the generic API error carrying status and body, and
2xx responses succeed. -/
theorem gongFetch_error_dispatch (resp : HttpResponse) :
    (resp.status = 429 →
        gongFetch resp
          = Except.error (GongFetchError.rateLimit (retryAfterValue resp.retryAfter))
        ∧ (resp.retryAfter = none → retryAfterValue resp.retryAfter = some 60)
        ∧ (∀ s n, resp.retryAfter = some s → s ≠ "" → jsParseInt s = some n →
            retryAfterValue resp.retryAfter = some n))
    ∧ (∀ sec, gongFetch resp = Except.error (GongFetchError.rateLimit sec) →
        resp.status = 429)
    ∧ (resp.status ≠ 429 → ¬(200 ≤ resp.status ∧ resp.status ≤ 299) →
        gongFetch resp = Except.error (GongFetchError.apiError resp.status resp.body))
    ∧ (resp.status ≠ 429 → 200 ≤ resp.status → resp.status ≤ 299 →
        gongFetch resp = Except.ok resp.body) := by
  refine ⟨?_, ?_, ?_, ?_⟩
  · intro h429
    refine ⟨by simp [gongFetch, h429], ?_, ?_⟩
    · intro hh
      simp [retryAfterValue, hh]
    · intro s n hs hne hp
      simp [retryAfterValue, hs, hne, hp]
  · intro sec h
    by_contra hne
    simp only [gongFetch, hne, if_false] at h
    split at h
    · exact Except.noConfusion h
    · simp at h
  · intro hne h2xx
    simp [gongFetch, hne, h2xx]
  · intro hne hlo hhi
    simp [gongFetch, hne, hlo, hhi]

/-- Witness for C6 at concrete responses: a 429 with `Retry-After: 7`, a 429
without the header, and a 500. -/
theorem gongFetch_error_dispatch_witness :
    gongFetch { status := 429, retryAfter := some ("7"), body := "" }
      = Except.error (GongFetchError.rateLimit (some 7))
    ∧ gongFetch { status := 429, retryAfter := none, body := "" }
      = Except.error (GongFetchError.rateLimit (some 60))
    ∧ gongFetch { status := 500, retryAfter := none, body := "oops" }
      = Except.error (GongFetchError.apiError 500 "oops") := by
  refine ⟨?_, ?_, ?_⟩
  · have h := (gongFetch_error_dispatch
      { status := 429, retryAfter := some ("7"), body := "" }).1 rfl
    rw [h.1, h.2.2 "7" 7 rfl (by decide) (by decide)]
  · have h := (gongFetch_error_dispatch
      { status := 429, retryAfter := none, body := "" }).1 rfl
    rw [h.1, h.2.1 rfl]
  · exact (gongFetch_error_dispatch
      { status := 500, retryAfter := none, body := "oops" }).2.2.1 (by decide) (by decide)

/-! ### C2: transcript batch retry policy -/

/-- The retry loop never makes more attempts than its remaining budget. -/
lemma batchLoop_attempts_le (o : Nat → FetchOutcome α) :
    ∀ remaining attemptIdx, (batchLoop o attemptIdx remaining).attempts ≤ remaining := by
  intro remaining
  induction remaining with
  | zero => intro i; simp [batchLoop]
  | succ r ih =>
    intro i
    simp only [batchLoop]
    cases o i with
    | success v => simp
    | failure => simp
    | rateLimited ra =>
      by_cases hr : r = 0
      · simp [hr]
      · simpa [hr] using Nat.succ_le_succ (ih (i + 1))

/-- C2.  For every transcript batch chunk: a chunk rate-limited twice then
successful succeeds after exactly the two signalled backoff sleeps; a chunk
rate-limited on four (hence all three attempted) consecutive attempts
re-throws the rate-limit error, which aborts the whole run with no database
writes; a non-rate-limit error is not retried and only leaves that chunk's
transcripts absent, without aborting; and no chunk ever exceeds the cap of
3 attempts. -/
theorem transcript_batch_retry_policy :
    (∀ (o : Nat → FetchOutcome (List GongCallTranscript)) (a b : Int)
        (v : List GongCallTranscript),
        o 0 = FetchOutcome.rateLimited a → o 1 = FetchOutcome.rateLimited b →
        o 2 = FetchOutcome.success v →
        fetchBatch o
          = { result := BatchResult.fetched v, sleepsMs := [a * 1000, b * 1000],
              attempts := 3 })
    ∧ (∀ (o : Nat → FetchOutcome (List GongCallTranscript)) (ras : Nat → Int),
        (∀ i, i < 4 → o i = FetchOutcome.rateLimited (ras i)) →
        fetchBatch o
          = { result := BatchResult.abortedRun (ras 2),
              sleepsMs := [ras 0 * 1000, ras 1 * 1000], attempts := 3 })
    ∧ (∀ (o : Nat → FetchOutcome (List GongCallTranscript)),
        o 0 = FetchOutcome.failure →
        fetchBatch o
          = { result := BatchResult.skippedBatch, sleepsMs := [], attempts := 1 })
    ∧ (∀ (o : Nat → FetchOutcome (List GongCallTranscript)),
        (fetchBatch o).attempts ≤ MAX_RETRIES_PER_BATCH)
    ∧ (∀ (env : SyncEnv) (calls : List CallData),
        env.gongConfigured = true → env.listResult = ListCallsResult.ok calls →
        calls.length ≠ 0 → (transcriptPhase env.batchOracle calls).aborted.isSome →
        (syncModel env).crashedWithError = true ∧ (syncModel env).dbUnits = []
          ∧ (syncModel env).summary = none)
    ∧ (∀ (oracles : Nat → Nat → FetchOutcome (List GongCallTranscript)) (j : Nat)
        (tmap : List (String × GongCallTranscript)) (chunk : List CallData)
        (rest : List (List CallData)),
        (fetchBatch (oracles j)).result = BatchResult.skippedBatch →
        (transcriptPhaseGo oracles j tmap (chunk :: rest)).transcriptMap
            = (transcriptPhaseGo oracles (j + 1) tmap rest).transcriptMap
          ∧ (transcriptPhaseGo oracles j tmap (chunk :: rest)).aborted
            = (transcriptPhaseGo oracles (j + 1) tmap rest).aborted) := by
  refine ⟨?_, ?_, ?_, ?_, ?_, ?_⟩
  · intro o a b v h0 h1 h2
    show batchLoop o 0 3 = _
    rw [show (3 : Nat) = 2 + 1 from rfl, batchLoop, h0]
    rw [show (2 : Nat) = 1 + 1 from rfl, batchLoop, h1]
    rw [show (1 : Nat) = 0 + 1 from rfl, batchLoop, h2]
    simp
  · intro o ras h
    show batchLoop o 0 3 = _
    rw [show (3 : Nat) = 2 + 1 from rfl, batchLoop, h 0 (by omega)]
    rw [show (2 : Nat) = 1 + 1 from rfl, batchLoop, h 1 (by omega)]
    rw [show (1 : Nat) = 0 + 1 from rfl, batchLoop, h 2 (by omega)]
    simp
  · intro o h0
    show batchLoop o 0 3 = _
    rw [show (3 : Nat) = 2 + 1 from rfl, batchLoop, h0]
  · intro o
    exact batchLoop_attempts_le o MAX_RETRIES_PER_BATCH 0
  · intro env calls hconf hlist hne hab
    obtain ⟨ra, hra⟩ := Option.isSome_iff_exists.mp hab
    obtain ⟨conf, forceFlag0, lr, oracle, db0, now0⟩ := env
    simp only at hconf hlist hra ⊢
    subst hconf
    subst hlist
    simp only [syncModel]
    rw [if_neg (by simp), if_neg hne, hra]
    simp
  · intro oracles j tmap chunk rest h
    constructor <;>
      · simp only [transcriptPhaseGo]
        rw [h]

/-- Witness for C2: the three oracle scenarios at concrete inputs. -/
theorem transcript_batch_retry_policy_witness :
    fetchBatch oEx
      = { result := BatchResult.fetched [], sleepsMs := [2 * 1000, 7 * 1000], attempts := 3 }
    ∧ fetchBatch oRL
      = { result := BatchResult.abortedRun 5, sleepsMs := [5 * 1000, 5 * 1000], attempts := 3 }
    ∧ fetchBatch oFail
      = { result := BatchResult.skippedBatch, sleepsMs := [], attempts := 1 } :=
  ⟨transcript_batch_retry_policy.1 oEx 2 7 [] rfl rfl rfl,
   transcript_batch_retry_policy.2.1 oRL (fun _ => 5) (fun _ _ => rfl),
   transcript_batch_retry_policy.2.2.1 oFail rfl⟩

/-! ### C4: pagination of `listAllCalls` -/

/-- The pagination loop along a finite chain of pages returns exactly the
concatenated items, requesting one page per chain element. -/
lemma pageChain_listAllCallsGo {α : Type} (fetch : Option String → GongPage α)
    {cur : Option String} {ps : List (GongPage α)}
    (h : PageChain fetch cur ps) :
    ∀ fuel, ps.length ≤ fuel →
      listAllCallsGo fetch fuel cur
        = some ((ps.map GongPage.items).flatten,
            cur :: (ps.dropLast.map GongPage.cursor)) := by
  induction h with
  | last cur p hf hcur =>
    intro fuel hfuel
    obtain ⟨f, rfl⟩ : ∃ f, fuel = f + 1 := by
      cases fuel
      · simp at hfuel
      · exact ⟨_, rfl⟩
    simp only [listAllCallsGo, hf]
    rcases hcur with hc | hc <;> simp [hc]
  | step cur p c ps hf hcur hne _hchain ih =>
    intro fuel hfuel
    obtain ⟨f, rfl⟩ : ∃ f, fuel = f + 1 := by
      cases fuel
      · simp at hfuel
      · exact ⟨_, rfl⟩
    have hlen : ps.length ≤ f := by
      simp only [List.length_cons] at hfuel
      omega
    have hps : ps ≠ [] := by
      cases _hchain <;> simp
    simp only [listAllCallsGo, hf, hcur]
    rw [if_neg hne, ih f hlen]
    simp [List.dropLast_cons_of_ne_nil hps, hcur]

/-- C4.  Against any provider returning a finite chain of pages (each page's
cursor leading to the next request, the last cursor absent or empty),
`listAllCalls` terminates, requests the pages in order starting from no
cursor and passing each returned cursor on, and returns exactly the
concatenation of all pages' items — nothing duplicated, nothing dropped. -/
theorem listAllCalls_paginates (α : Type) (fetch : Option String → GongPage α)
    (ps : List (GongPage α)) (fuel : Nat)
    (hchain : PageChain fetch none ps) (hfuel : ps.length ≤ fuel) :
    listAllCalls fetch fuel
      = some ((ps.map GongPage.items).flatten,
          none :: (ps.dropLast.map GongPage.cursor)) :=
  pageChain_listAllCallsGo fetch hchain fuel hfuel

/-- Witness for C4: a concrete three-page provider (cursors none → "B" → "C"
→ "" ) yields the four items in order after three requests. -/
theorem listAllCalls_paginates_witness :
    listAllCalls fetchEx 3
      = some (["i1", "i2", "i3", "i4"], [none, some ("B"), some ("C")]) := by
  have hchain : PageChain fetchEx none pagesEx := by
    refine PageChain.step none _ "B" _ (by decide) (by decide) (by decide) ?_
    refine PageChain.step (some ("B")) _ "C" _ (by decide) (by decide) (by decide) ?_
    exact PageChain.last (some ("C")) _ (by decide) (Or.inr (by decide))
  have h := listAllCalls_paginates String fetchEx pagesEx 3 hchain (by decide)
  rw [h]
  decide

/-! ### C8: `extractSpeakers` dedup order and palette assignment -/

lemma mem_uniqueFirstSeenAux (a : String) :
    ∀ (l seen : List String),
      a ∈ uniqueFirstSeenAux seen l ↔ a ∈ l ∧ a ∉ seen := by
  intro l
  induction l with
  | nil => intro seen; simp [uniqueFirstSeenAux]
  | cons x xs ih =>
    intro seen
    by_cases hx : x ∈ seen
    · rw [uniqueFirstSeenAux, if_pos hx, ih]
      by_cases hax : a = x
      · subst hax; simp [hx]
      · simp [hax]
    · rw [uniqueFirstSeenAux, if_neg hx]
      simp only [List.mem_cons, ih, List.mem_append, List.mem_singleton]
      by_cases hax : a = x
      · subst hax; simp [hx]
      · simp [hax]

lemma mem_uniqueFirstSeen (a : String) (l : List String) :
    a ∈ uniqueFirstSeen l ↔ a ∈ l := by
  rw [uniqueFirstSeen, mem_uniqueFirstSeenAux]
  simp

lemma nodup_uniqueFirstSeenAux :
    ∀ (l seen : List String), (uniqueFirstSeenAux seen l).Nodup := by
  intro l
  induction l with
  | nil => intro seen; simp [uniqueFirstSeenAux]
  | cons x xs ih =>
    intro seen
    by_cases hx : x ∈ seen
    · rw [uniqueFirstSeenAux, if_pos hx]
      exact ih seen
    · rw [uniqueFirstSeenAux, if_neg hx]
      refine List.nodup_cons.mpr ⟨?_, ih (seen ++ [x])⟩
      intro hmem
      rw [mem_uniqueFirstSeenAux] at hmem
      exact hmem.2 (by simp)

lemma nodup_uniqueFirstSeen (l : List String) : (uniqueFirstSeen l).Nodup :=
  nodup_uniqueFirstSeenAux l []

/-- The spec's left fold, run from any accumulator matching the seen-set,
appends exactly the first-seen dedup of the unseen elements. -/
lemma foldl_firstSeen_aux :
    ∀ (l acc seen : List String), (∀ y, y ∈ acc ↔ y ∈ seen) →
      l.foldl (fun acc x => if x ∈ acc then acc else acc ++ [x]) acc
        = acc ++ uniqueFirstSeenAux seen l := by
  intro l
  induction l with
  | nil => intro acc seen _; simp [uniqueFirstSeenAux]
  | cons x xs ih =>
    intro acc seen hcompat
    rw [List.foldl_cons]
    by_cases hx : x ∈ acc
    · rw [if_pos hx, uniqueFirstSeenAux, if_pos ((hcompat x).mp hx)]
      exact ih acc seen hcompat
    · rw [if_neg hx, uniqueFirstSeenAux, if_neg (fun h => hx ((hcompat x).mpr h))]
      rw [ih (acc ++ [x]) (seen ++ [x]) (by intro y; simp [hcompat y])]
      simp

/-- Refinement: the source's `[...new Set(names)]` equals the spec's
first-seen-order dedup. -/
lemma uniqueFirstSeen_eq_spec (l : List String) :
    uniqueFirstSeen l = firstSeenUniqueSpec l := by
  have h := foldl_firstSeen_aux l [] [] (by simp)
  rw [firstSeenUniqueSpec, h, uniqueFirstSeen]
  simp

lemma mapWithIndex_get? (f : Nat → String → Speaker) :
    ∀ (l : List String) (k i : Nat),
      (mapWithIndex f k l)[i]? = (l[i]?).map (fun s => f (k + i) s) := by
  intro l
  induction l with
  | nil => intro k i; simp [mapWithIndex]
  | cons x xs ih =>
    intro k i
    cases i with
    | zero => simp [mapWithIndex]
    | succ j =>
      simp only [mapWithIndex, List.getElem?_cons_succ, ih (k + 1) j]
      simp only [show k + 1 + j = k + (j + 1) from by omega]

lemma mapWithIndex_map_name (f : Nat → String → Speaker)
    (hf : ∀ i n, (f i n).name = n) :
    ∀ (l : List String) (k : Nat), (mapWithIndex f k l).map (fun s => s.name) = l := by
  intro l
  induction l with
  | nil => intro k; rfl
  | cons x xs ih => intro k; simp [mapWithIndex, hf, ih]

/-- C8.  `extractSpeakers` returns the unique speaker names in first-seen
order (refinement against the spec's fold), with no duplicates; the i-th
speaker gets the palette color at index `i mod palette length` (so the 11th
unique speaker wraps to palette index 0); and the output depends only on
the ordered list of segment speaker names. -/
theorem extractSpeakers_first_seen_palette (segments : List TranscriptSegment) :
    ((extractSpeakers segments).map (fun s => s.name)
        = firstSeenUniqueSpec (segments.map (fun s => s.speaker)))
    ∧ ((extractSpeakers segments).map (fun s => s.name)).Nodup
    ∧ (∀ (i : Nat) (spk : Speaker),
        (extractSpeakers segments)[i]? = some spk →
        spk.color = SPEAKER_COLORS.getD (i % SPEAKER_COLORS.length) (""))
    ∧ (∀ segments2 : List TranscriptSegment,
        segments.map (fun s => s.speaker) = segments2.map (fun s => s.speaker) →
        extractSpeakers segments = extractSpeakers segments2) := by
  refine ⟨?_, ?_, ?_, ?_⟩
  · rw [extractSpeakers]
    rw [mapWithIndex_map_name _ (fun _ _ => rfl)]
    exact uniqueFirstSeen_eq_spec _
  · rw [extractSpeakers]
    rw [mapWithIndex_map_name _ (fun _ _ => rfl)]
    exact nodup_uniqueFirstSeen _
  · intro i spk h
    rw [extractSpeakers, mapWithIndex_get?, Option.map_eq_some'] at h
    obtain ⟨s, _hs, hspk⟩ := h
    rw [← hspk]
    simp
  · intro segments2 hmap
    rw [extractSpeakers, extractSpeakers, hmap]

/-- Witness for C8: with eleven distinct speakers the 11th (index 10) reuses
palette index 0. -/
theorem extractSpeakers_first_seen_palette_witness :
    (extractSpeakers segs11)[10]?
        = some { id := "k", name := "K", color := "#6366f1" }
    ∧ ({ id := "k", name := "K", color := "#6366f1" } : Speaker).color
        = SPEAKER_COLORS.getD (10 % SPEAKER_COLORS.length) ("") := by
  have h10 : (extractSpeakers segs11)[10]?
      = some { id := "k", name := "K", color := "#6366f1" } := by decide
  exact ⟨h10, (extractSpeakers_first_seen_palette segs11).2.2.1 10 _ h10⟩

/-! ### C5: `parseGongTranscript` ordering, stability, and fields -/

/-- Inserting an element moves it past strictly-smaller keys only, so the
elements with any fixed start time keep their relative order. -/
lemma filter_startTime_orderedInsert (q : Rat) (a : TranscriptSegment)
    (s : List TranscriptSegment) :
    (List.orderedInsert segLE a s).filter (fun x => decide (x.startTime = q))
      = if a.startTime = q
        then a :: s.filter (fun x => decide (x.startTime = q))
        else s.filter (fun x => decide (x.startTime = q)) := by
  induction s with
  | nil =>
    by_cases ha : a.startTime = q <;> simp [List.orderedInsert, ha]
  | cons b l ih =>
    rw [List.orderedInsert]
    by_cases hle : segLE a b
    · rw [if_pos hle]
      by_cases ha : a.startTime = q <;> simp [List.filter_cons, ha]
    · rw [if_neg hle]
      have hb : b.startTime < a.startTime := lt_of_not_le hle
      by_cases ha : a.startTime = q
      · have hbq : ¬ b.startTime = q := by rw [← ha]; exact ne_of_lt hb
        simp [List.filter_cons, hbq, ih, ha]
      · simp [List.filter_cons, ih, ha]

/-- Stability of the sort: for every start time, the sorted output lists the
segments with that start time in their original order. -/
lemma filter_startTime_insertionSort (q : Rat) (l : List TranscriptSegment) :
    (List.insertionSort segLE l).filter (fun x => decide (x.startTime = q))
      = l.filter (fun x => decide (x.startTime = q)) := by
  induction l with
  | nil => rfl
  | cons a l ih =>
    rw [List.insertionSort, filter_startTime_orderedInsert]
    by_cases ha : a.startTime = q <;> simp [List.filter_cons, ha, ih]

lemma mem_sentenceSegs (name : String) :
    ∀ (ss : List GongSentence) (k : Nat) (seg : TranscriptSegment),
      seg ∈ sentenceSegs name ss k →
      ∃ s ∈ ss, ∃ n, seg = sentenceSegment name n s := by
  intro ss
  induction ss with
  | nil => intro k seg h; simp [sentenceSegs] at h
  | cons s rest ih =>
    intro k seg h
    rw [sentenceSegs] at h
    rcases List.mem_cons.mp h with h1 | h2
    · exact ⟨s, by simp, k + 1, h1⟩
    · obtain ⟨s2, hs2, n, hn⟩ := ih (k + 1) seg h2
      exact ⟨s2, by simp [hs2], n, hn⟩

lemma mem_entrySegs (m : List (String × String)) :
    ∀ (entries : List GongTranscriptEntry) (k : Nat) (seg : TranscriptSegment),
      seg ∈ entrySegs m entries k →
      ∃ e ∈ entries, ∃ s ∈ e.sentences, ∃ n,
        seg = sentenceSegment ((mapGet m e.speakerId).getD ("Speaker")) n s := by
  intro entries
  induction entries with
  | nil => intro k seg h; simp [entrySegs] at h
  | cons e rest ih =>
    intro k seg h
    rw [entrySegs] at h
    rcases List.mem_append.mp h with h1 | h2
    · obtain ⟨s, hs, n, hn⟩ := mem_sentenceSegs _ e.sentences k seg h1
      exact ⟨e, by simp, s, hs, n, hn⟩
    · obtain ⟨e2, he2, s, hs, n, hn⟩ := ih _ seg h2
      exact ⟨e2, by simp [he2], s, hs, n, hn⟩

/-- C5.  `parseGongTranscript` output is sorted by start time ascending;
segments with equal start time keep the order of the flattened
entry→sentence traversal (stability, stated per start time); and every
output segment carries the provider's millisecond timestamps divided by
1000, the sentence text, and the speaker resolved through the map with
default "Speaker" when the entry's speaker id is unmapped. -/
theorem parseGongTranscript_sorted_stable (t : GongCallTranscript)
    (speakerMap : List (String × String)) :
    (parseGongTranscript t speakerMap).Pairwise segLE
    ∧ (∀ q : Rat,
        (parseGongTranscript t speakerMap).filter (fun s => decide (s.startTime = q))
          = (entrySegs speakerMap t.transcript 0).filter
              (fun s => decide (s.startTime = q)))
    ∧ (∀ seg, seg ∈ parseGongTranscript t speakerMap →
        ∃ e ∈ t.transcript, ∃ s ∈ e.sentences,
          seg.startTime = (s.startMs : Rat) / 1000
          ∧ seg.endTime = (s.endMs : Rat) / 1000
          ∧ seg.text = s.text
          ∧ seg.speaker = (mapGet speakerMap e.speakerId).getD ("Speaker")
          ∧ (mapGet speakerMap e.speakerId = none → seg.speaker = "Speaker")) := by
  refine ⟨List.sorted_insertionSort segLE _, ?_, ?_⟩
  · intro q
    exact filter_startTime_insertionSort q _
  · intro seg hseg
    rw [parseGongTranscript] at hseg
    have hmem : seg ∈ entrySegs speakerMap t.transcript 0 :=
      (List.perm_insertionSort segLE _).mem_iff.mp hseg
    obtain ⟨e, he, s, hs, n, hn⟩ := mem_entrySegs speakerMap t.transcript 0 seg hmem
    subst hn
    refine ⟨e, he, s, hs, rfl, rfl, rfl, rfl, ?_⟩
    intro hnone
    simp [sentenceSegment, hnone]

/-- Witness for C5 at a concrete transcript: two entries, a start-time tie
across entries kept in flattening order, timestamps divided by 1000, and an
unmapped speaker resolved to "Speaker". -/
theorem parseGongTranscript_sorted_stable_witness :
    parseGongTranscript tEx mapEx
      = [{ id := "seg-2", startTime := 1, endTime := 3 / 2, speaker := "Alice", text := "a" },
         { id := "seg-3", startTime := 1, endTime := 6 / 5, speaker := "Speaker", text := "c" },
         { id := "seg-1", startTime := 2, endTime := 3, speaker := "Alice", text := "b" }]
    ∧ (parseGongTranscript tEx mapEx).Pairwise segLE := by
  refine ⟨?_, (parseGongTranscript_sorted_stable tEx mapEx).1⟩
  norm_num [parseGongTranscript, tEx, mapEx, entrySegs, sentenceSegs, sentenceSegment,
    mapGet, segLE, List.find?]
  decide

/-! ### Database-level helper lemmas -/

lemma applyUnits_append (db : DbState) (us vs : List (List DbWrite)) :
    applyUnits db (us ++ vs) = applyUnits (applyUnits db us) vs := by
  simp [applyUnits, List.foldl_append]

lemma applyWrite_recordings_of_not_upsert (db : DbState) (w : DbWrite)
    (h : ∀ r, w ≠ DbWrite.upsertRec r) :
    (applyWrite db w).recordings = db.recordings := by
  cases w with
  | upsertRec r => exact absurd rfl (h r)
  | delSegments rid => rfl
  | delSpeakers rid => rfl
  | delVideoFiles rid => rfl
  | delChatMessages rid => rfl
  | insSegment row => rfl
  | insSpeaker row => rfl

lemma find?_filter_of_imp {β : Type} (l : List β) (p q : β → Bool)
    (h : ∀ x, p x = true → q x = true) :
    (l.filter q).find? p = l.find? p := by
  induction l with
  | nil => rfl
  | cons a l ih =>
    rw [List.filter_cons]
    by_cases hq : q a = true
    · rw [if_pos hq]
      by_cases hp : p a = true
      · rw [List.find?_cons_of_pos _ hp, List.find?_cons_of_pos _ hp]
      · have hp2 : ¬(p a = true) := hp
        rw [List.find?_cons_of_neg _ hp2, List.find?_cons_of_neg _ hp2, ih]
    · rw [if_neg hq]
      have hp : ¬(p a = true) := fun hpa => hq (h a hpa)
      rw [List.find?_cons_of_neg _ hp, ih]

/-- `INSERT OR REPLACE` replaces the row for its own id and leaves every
other id's lookup unchanged. -/
lemma recFind_applyWrite_upsert (db : DbState) (r : RecordingRow) (rid : String) :
    recFind (applyWrite db (DbWrite.upsertRec r)) rid
      = if r.id = rid then some r else recFind db rid := by
  show ((db.recordings.filter (fun x => decide (x.id ≠ r.id))) ++ [r]).find?
      (fun x => decide (x.id = rid)) = _
  rw [List.find?_append]
  by_cases hid : r.id = rid
  · rw [if_pos hid]
    have h1 : (db.recordings.filter (fun x => decide (x.id ≠ r.id))).find?
        (fun x => decide (x.id = rid)) = none := by
      rw [List.find?_eq_none]
      intro x hx
      have hxid : x.id ≠ r.id := by
        have := List.of_mem_filter hx
        simpa using this
      simp [hid ▸ hxid]
    rw [h1]
    simp [hid]
  · have h2 : ([r].find? (fun x => decide (x.id = rid))) = none := by
      simp [hid]
    rw [h2, if_neg hid]
    rw [find?_filter_of_imp _ _ _ (fun x hx => by
      simp only [decide_eq_true_eq] at hx ⊢
      rw [hx]
      exact fun hcontra => hid hcontra.symm)]
    rw [recFind]
    simp

lemma isRecentlySynced_applyWrite (db : DbState) (w : DbWrite) (rid : String)
    (t2 : Int)
    (hw : ∀ r, w = DbWrite.upsertRec r → t2 - 60 * 60 * 1000 < r.syncedAt)
    (h : isRecentlySynced db rid t2 = true) :
    isRecentlySynced (applyWrite db w) rid t2 = true := by
  cases w with
  | upsertRec r =>
    rw [isRecentlySynced, recFind_applyWrite_upsert]
    by_cases hid : r.id = rid
    · rw [if_pos hid]
      simpa using hw r rfl
    · rw [if_neg hid]
      exact h
  | delSegments rid2 => exact h
  | delSpeakers rid2 => exact h
  | delVideoFiles rid2 => exact h
  | delChatMessages rid2 => exact h
  | insSegment row => exact h
  | insSpeaker row => exact h

lemma isRecentlySynced_applyUnit (u : List DbWrite) :
    ∀ (db : DbState) (rid : String) (t2 : Int),
      (∀ w ∈ u, ∀ r, w = DbWrite.upsertRec r → t2 - 60 * 60 * 1000 < r.syncedAt) →
      isRecentlySynced db rid t2 = true →
      isRecentlySynced (applyUnit db u) rid t2 = true := by
  induction u with
  | nil => intro db rid t2 _ h; exact h
  | cons w ws ih =>
    intro db rid t2 hw h
    rw [applyUnit, List.foldl_cons]
    exact ih (applyWrite db w) rid t2 (fun x hx => hw x (by simp [hx]))
      (isRecentlySynced_applyWrite db w rid t2 (hw w (by simp)) h)

lemma isRecentlySynced_applyUnits (us : List (List DbWrite)) :
    ∀ (db : DbState) (rid : String) (t2 : Int),
      (∀ u ∈ us, ∀ w ∈ u, ∀ r, w = DbWrite.upsertRec r →
        t2 - 60 * 60 * 1000 < r.syncedAt) →
      isRecentlySynced db rid t2 = true →
      isRecentlySynced (applyUnits db us) rid t2 = true := by
  induction us with
  | nil => intro db rid t2 _ h; exact h
  | cons u us ih =>
    intro db rid t2 hu h
    rw [applyUnits, List.foldl_cons]
    exact ih (applyUnit db u) rid t2 (fun v hv => hu v (by simp [hv]))
      (isRecentlySynced_applyUnit u db rid t2 (hu u (by simp)) h)

/-! ### `processCall` structural lemmas -/

/-- The skip decision is exactly `!force && isRecentlySynced`. -/
lemma processCall_skipped_iff (db : DbState) (now : Int) (cd : CallData)
    (tm : List (String × GongCallTranscript)) (force : Bool) :
    (processCall db now cd tm force).result.skipped
      = (!force && isRecentlySynced db ("gong_" ++ cd.metaData.id) now) := by
  by_cases hc : (!force && isRecentlySynced db ("gong_" ++ cd.metaData.id) now) = true
  · simp only [processCall, if_pos hc]
    exact hc.symm
  · have hcf : (!force && isRecentlySynced db ("gong_" ++ cd.metaData.id) now) = false := by
      revert hc
      cases !force && isRecentlySynced db ("gong_" ++ cd.metaData.id) now <;> simp
    cases hm : resolvedMediaUrl cd with
    | none => simp [processCall, hcf, hm]
    | some u => simp [processCall, hcf, hm]

/-- A skipped call issues no commit units. -/
lemma processCall_skipped_units (db : DbState) (now : Int) (cd : CallData)
    (tm : List (String × GongCallTranscript)) (force : Bool)
    (h : (processCall db now cd tm force).result.skipped = true) :
    (processCall db now cd tm force).units = [] := by
  by_cases hc : (!force && isRecentlySynced db ("gong_" ++ cd.metaData.id) now) = true
  · simp only [processCall, if_pos hc]
  · simp only [processCall, if_neg hc] at h ⊢
    cases hm : resolvedMediaUrl cd with
    | none => simp only [hm]
    | some u =>
      rw [hm] at h
      simp at h

/-- A non-synced call issues no commit units (it was skipped or its media
URL was unresolvable). -/
lemma processCall_units_of_not_synced (db : DbState) (now : Int) (cd : CallData)
    (tm : List (String × GongCallTranscript)) (force : Bool)
    (hs : (processCall db now cd tm force).result.synced = false) :
    (processCall db now cd tm force).units = [] := by
  by_cases hc : (!force && isRecentlySynced db ("gong_" ++ cd.metaData.id) now) = true
  · simp only [processCall, if_pos hc]
  · simp only [processCall, if_neg hc] at hs ⊢
    cases hm : resolvedMediaUrl cd with
    | none => simp only [hm]
    | some u =>
      rw [hm] at hs
      simp at hs

/-- The commit units of a synced call: one `INSERT OR REPLACE` stamped with
`now`, the four child-table deletes, and the two conditional bulk inserts. -/
lemma processCall_units_of_synced (db : DbState) (now : Int) (cd : CallData)
    (tm : List (String × GongCallTranscript)) (force : Bool)
    (hs : (processCall db now cd tm force).result.synced = true) :
    ∃ mediaUrl : String,
      resolvedMediaUrl cd = some mediaUrl ∧
      (processCall db now cd tm force).units
        = upsertRecordingUnits now
            { id := "gong_" ++ cd.metaData.id
              title := if cd.metaData.title = "" then "Untitled Call" else cd.metaData.title
              description := cd.metaData.purpose
              videoUrl := mediaUrl
              duration := cd.metaData.duration
              space := "Gong Calls"
              source := "gong"
              mediaType := jsToLower cd.metaData.media
              mediaUrlExpiresAt := some (now + MEDIA_URL_EXPIRY_HOURS * 60 * 60 * 1000)
              createdAt := cd.metaData.started }
          ++ deleteRecordingDataUnits ("gong_" ++ cd.metaData.id)
          ++ (if 0 < (callSegments cd tm).length
              then insertSegmentsUnits ("gong_" ++ cd.metaData.id) (callSegments cd tm)
              else [])
          ++ (if 0 < (callSpeakers cd tm).length
              then insertSpeakersUnits ("gong_" ++ cd.metaData.id) (callSpeakers cd tm)
              else []) := by
  by_cases hc : (!force && isRecentlySynced db ("gong_" ++ cd.metaData.id) now) = true
  · simp only [processCall, if_pos hc] at hs
    simp at hs
  · simp only [processCall, if_neg hc] at hs ⊢
    cases hm : resolvedMediaUrl cd with
    | none =>
      rw [hm] at hs
      simp at hs
    | some u =>
      exact ⟨u, rfl, rfl⟩

/-- A call whose media URL is unresolvable and that is not skipped returns
the failed-shaped result with no commit units. -/
lemma processCall_media_none (db : DbState) (now : Int) (cd : CallData)
    (tm : List (String × GongCallTranscript)) (force : Bool)
    (hc : (!force && isRecentlySynced db ("gong_" ++ cd.metaData.id) now) = false)
    (hm : resolvedMediaUrl cd = none) :
    processCall db now cd tm force
      = { result := { synced := false, skipped := false, title := cd.metaData.title },
          units := [] } := by
  have hcneg : ¬((!force && isRecentlySynced db ("gong_" ++ cd.metaData.id) now) = true) := by
    rw [hc]
    simp
  simp only [processCall, if_neg hcneg, hm]

lemma no_upsert_deleteUnits (rid : String) :
    ∀ u ∈ deleteRecordingDataUnits rid, ∀ w ∈ u, ∀ r, w ≠ DbWrite.upsertRec r := by
  intro u hu w hw r
  simp only [deleteRecordingDataUnits, List.mem_cons, List.not_mem_nil, or_false] at hu
  rcases hu with h | h | h | h <;> subst h <;> simp_all

lemma no_upsert_insertSegmentsUnits (rid : String) (segs : List TranscriptSegment) :
    ∀ u ∈ insertSegmentsUnits rid segs, ∀ w ∈ u, ∀ r, w ≠ DbWrite.upsertRec r := by
  intro u hu w hw r
  simp only [insertSegmentsUnits, List.mem_singleton] at hu
  subst hu
  simp only [List.mem_map] at hw
  obtain ⟨row, _, hrow⟩ := hw
  rw [← hrow]
  simp

lemma no_upsert_insertSpeakersUnits (rid : String) (spks : List Speaker) :
    ∀ u ∈ insertSpeakersUnits rid spks, ∀ w ∈ u, ∀ r, w ≠ DbWrite.upsertRec r := by
  intro u hu w hw r
  simp only [insertSpeakersUnits, List.mem_singleton] at hu
  subst hu
  simp only [List.mem_map] at hw
  obtain ⟨row, _, hrow⟩ := hw
  rw [← hrow]
  simp

/-- Every `INSERT OR REPLACE` a per-call step issues is stamped with the
step's clock value. -/
lemma processCall_upsert_time (db : DbState) (now : Int) (cd : CallData)
    (tm : List (String × GongCallTranscript)) (force : Bool) :
    ∀ u ∈ (processCall db now cd tm force).units, ∀ w ∈ u, ∀ r,
      w = DbWrite.upsertRec r → r.syncedAt = now := by
  intro u hu w hw r hr
  subst hr
  by_cases hs : (processCall db now cd tm force).result.synced = true
  · obtain ⟨url, _hm, hunits⟩ := processCall_units_of_synced db now cd tm force hs
    rw [hunits] at hu
    rw [List.mem_append] at hu
    rcases hu with hu | hu
    · rw [List.mem_append] at hu
      rcases hu with hu | hu
      · rw [List.mem_append] at hu
        rcases hu with hu | hu
        · simp only [upsertRecordingUnits, List.mem_singleton] at hu
          subst hu
          simp only [List.mem_singleton] at hw
          cases hw
          rfl
        · exact absurd rfl (no_upsert_deleteUnits _ u hu _ hw r)
      · split at hu
        · exact absurd rfl (no_upsert_insertSegmentsUnits _ _ u hu _ hw r)
        · simp at hu
    · split at hu
      · exact absurd rfl (no_upsert_insertSpeakersUnits _ _ u hu _ hw r)
      · simp at hu
  · have hsf : (processCall db now cd tm force).result.synced = false := by
      revert hs
      cases (processCall db now cd tm force).result.synced <;> simp
    rw [processCall_units_of_not_synced db now cd tm force hsf] at hu
    simp at hu

/-! ### Run-level lemmas -/

lemma runCalls_length (now : Int) (tm : List (String × GongCallTranscript))
    (force : Bool) :
    ∀ (calls : List CallData) (db : DbState),
      (runCalls db now tm force calls).2.length = calls.length := by
  intro calls
  induction calls with
  | nil => intro db; rfl
  | cons c cs ih =>
    intro db
    simp only [runCalls, List.length_cons]
    rw [ih]

/-- A recording that looks recently synced at time `t2` keeps looking so
through a whole run whose clock `now` is itself within `t2`'s window. -/
lemma runCalls_preserves_recent (now t2 : Int)
    (tm : List (String × GongCallTranscript)) (force : Bool) (rid : String)
    (hn : t2 - 60 * 60 * 1000 < now) :
    ∀ (calls : List CallData) (db : DbState),
      isRecentlySynced db rid t2 = true →
      isRecentlySynced (runCalls db now tm force calls).1 rid t2 = true := by
  intro calls
  induction calls with
  | nil => intro db h; exact h
  | cons c cs ih =>
    intro db h
    simp only [runCalls]
    apply ih
    apply isRecentlySynced_applyUnits _ _ _ _ _ h
    intro u hu w hw r hr
    rw [processCall_upsert_time db now c tm force u hu w hw r hr]
    exact hn

/-- A synced per-call step leaves its recording looking recently synced for
any later time within the freshness window. -/
lemma processCall_synced_establishes (db : DbState) (now t2 : Int) (cd : CallData)
    (tm : List (String × GongCallTranscript)) (force : Bool)
    (hn : t2 - 60 * 60 * 1000 < now)
    (hs : (processCall db now cd tm force).result.synced = true) :
    isRecentlySynced (applyUnits db (processCall db now cd tm force).units)
      ("gong_" ++ cd.metaData.id) t2 = true := by
  obtain ⟨url, _hm, hunits⟩ := processCall_units_of_synced db now cd tm force hs
  rw [hunits]
  rw [applyUnits_append, applyUnits_append, applyUnits_append]
  have h1 : isRecentlySynced
      (applyUnits db (upsertRecordingUnits now
        { id := "gong_" ++ cd.metaData.id
          title := if cd.metaData.title = "" then "Untitled Call" else cd.metaData.title
          description := cd.metaData.purpose
          videoUrl := url
          duration := cd.metaData.duration
          space := "Gong Calls"
          source := "gong"
          mediaType := jsToLower cd.metaData.media
          mediaUrlExpiresAt := some (now + MEDIA_URL_EXPIRY_HOURS * 60 * 60 * 1000)
          createdAt := cd.metaData.started }))
      ("gong_" ++ cd.metaData.id) t2 = true := by
    simp only [upsertRecordingUnits, applyUnits, applyUnit, List.foldl_cons, List.foldl_nil]
    rw [isRecentlySynced, recFind_applyWrite_upsert]
    rw [if_pos rfl]
    simpa using hn
  have h2 := isRecentlySynced_applyUnits (deleteRecordingDataUnits ("gong_" ++ cd.metaData.id))
    _ _ t2 (fun u hu w hw r hr => absurd hr (no_upsert_deleteUnits _ u hu w hw r)) h1
  apply isRecentlySynced_applyUnits _ _ _ t2
  · intro u hu w hw r hr
    exfalso
    revert hu
    split
    · intro hu
      exact no_upsert_insertSpeakersUnits _ _ u hu w hw r hr
    · intro hu
      simp at hu
  · apply isRecentlySynced_applyUnits _ _ _ t2
    · intro u hu w hw r hr
      exfalso
      revert hu
      split
      · intro hu
        exact no_upsert_insertSegmentsUnits _ _ u hu w hw r hr
      · intro hu
        simp at hu
    · exact h2

/-- After a run, every call the run synced leaves its recording looking
recently synced at any time within the window of the run's clock. -/
lemma runCalls_synced_recent (now t2 : Int)
    (tm : List (String × GongCallTranscript)) (force : Bool)
    (hn : t2 - 60 * 60 * 1000 < now) :
    ∀ (calls : List CallData) (db : DbState) (i : Nat) (cd : CallData)
      (res : SyncResult × List (List DbWrite)),
      calls[i]? = some cd →
      (runCalls db now tm force calls).2[i]? = some res →
      res.1.synced = true →
      isRecentlySynced (runCalls db now tm force calls).1
        ("gong_" ++ cd.metaData.id) t2 = true := by
  intro calls
  induction calls with
  | nil => intro db i cd res h; simp at h
  | cons c cs ih =>
    intro db i cd res hcd hres hsync
    simp only [runCalls] at hres ⊢
    cases i with
    | zero =>
      simp only [List.getElem?_cons_zero, Option.some.injEq] at hcd hres
      subst hcd
      rw [← hres] at hsync
      simp only at hsync
      exact runCalls_preserves_recent now t2 tm force _ hn cs _
        (processCall_synced_establishes db now t2 c tm force hn hsync)
    | succ j =>
      simp only [List.getElem?_cons_succ] at hcd hres
      exact ih _ j cd res hcd hres hsync

/-- During a forced-off run, a call whose recording looks recently synced
when its turn comes is skipped with zero writes; recentness is preserved by
the preceding calls of the same run. -/
lemma runCalls_recent_skip (now : Int) (tm : List (String × GongCallTranscript)) :
    ∀ (calls : List CallData) (db : DbState) (i : Nat) (cd : CallData)
      (res : SyncResult × List (List DbWrite)),
      calls[i]? = some cd →
      isRecentlySynced db ("gong_" ++ cd.metaData.id) now = true →
      (runCalls db now tm false calls).2[i]? = some res →
      res.1.skipped = true ∧ res.2 = [] := by
  intro calls
  induction calls with
  | nil => intro db i cd res h; simp at h
  | cons c cs ih =>
    intro db i cd res hcd hrec hres
    simp only [runCalls] at hres
    cases i with
    | zero =>
      simp only [List.getElem?_cons_zero, Option.some.injEq] at hcd hres
      subst hcd
      have hskip : (processCall db now c tm false).result.skipped = true := by
        rw [processCall_skipped_iff]
        simpa using hrec
      have hunits := processCall_skipped_units db now c tm false hskip
      rw [← hres]
      exact ⟨hskip, hunits⟩
    | succ j =>
      simp only [List.getElem?_cons_succ] at hcd hres
      refine ih _ j cd res hcd ?_ hres
      apply isRecentlySynced_applyUnits _ _ _ now _ hrec
      intro u hu w hw r hr
      rw [processCall_upsert_time db now c tm false u hu w hw r hr]
      omega

/-! ### C3: idempotent second run and the skip decision -/

/-- C3.  Running the sync loop twice on the same call list, the second run
without force and starting within the one-hour freshness window of the
first, skips — with zero database writes — every call the first run synced;
and in general a per-call step is skipped, writing nothing, exactly when
force is absent and the recording already looks recently synced
(`syncedAt` within the last hour). -/
theorem sync_second_run_idempotent (db : DbState) (t1 t2 : Int)
    (tm1 tm2 : List (String × GongCallTranscript)) (force1 : Bool)
    (calls : List CallData)
    (hwin : t2 - 60 * 60 * 1000 < t1) :
    (∀ (i : Nat) (cd : CallData) (res1 res2 : SyncResult × List (List DbWrite)),
        calls[i]? = some cd →
        (runCalls db t1 tm1 force1 calls).2[i]? = some res1 →
        (runCalls (runCalls db t1 tm1 force1 calls).1 t2 tm2 false calls).2[i]?
          = some res2 →
        res1.1.synced = true →
        res2.1.skipped = true ∧ res2.2 = [])
    ∧ (∀ (db0 : DbState) (now : Int) (cd : CallData)
        (tm : List (String × GongCallTranscript)) (force : Bool),
        (processCall db0 now cd tm force).result.skipped
            = (!force && isRecentlySynced db0 ("gong_" ++ cd.metaData.id) now)
          ∧ ((processCall db0 now cd tm force).result.skipped = true →
              (processCall db0 now cd tm force).units = [])) := by
  constructor
  · intro i cd res1 res2 hcd hres1 hres2 hsync
    have hrec := runCalls_synced_recent t1 t2 tm1 force1 hwin calls db i cd res1
      hcd hres1 hsync
    exact runCalls_recent_skip t2 tm2 calls _ i cd res2 hcd hrec hres2
  · intro db0 now cd tm force
    exact ⟨processCall_skipped_iff db0 now cd tm force,
      processCall_skipped_units db0 now cd tm force⟩

/-- Witness for C3: a one-call list synced at time 0 from an empty database
is skipped with zero writes when re-run at time 1000. -/
theorem sync_second_run_idempotent_witness :
    ((1000 : Int) - 60 * 60 * 1000 < 0)
    ∧ (∃ res1 res2 : SyncResult × List (List DbWrite),
        (runCalls dbEmpty 0 [] false [cdEx]).2[0]? = some res1
        ∧ (runCalls (runCalls dbEmpty 0 [] false [cdEx]).1 1000 [] false [cdEx]).2[0]?
            = some res2
        ∧ res1.1.synced = true
        ∧ res2.1.skipped = true ∧ res2.2 = []) := by
  refine ⟨by decide, ⟨_, _, rfl, rfl, by decide, ?_⟩⟩
  exact (sync_second_run_idempotent dbEmpty 0 1000 [] [] false [cdEx] (by decide)).1
    0 cdEx _ _ rfl rfl rfl (by decide)

/-! ### Crash-state computations (C1/C10) -/

lemma applyUnit_insSegments (rows : List SegmentRow) :
    ∀ db : DbState, applyUnit db (rows.map DbWrite.insSegment)
      = { db with segments := db.segments ++ rows } := by
  induction rows with
  | nil => intro db; simp [applyUnit]
  | cons r rs ih =>
    intro db
    rw [List.map_cons, applyUnit, List.foldl_cons]
    have h := ih (applyWrite db (DbWrite.insSegment r))
    rw [applyUnit] at h
    rw [h]
    simp [applyWrite]

lemma applyUnit_insSpeakers (rows : List SpeakerRow) :
    ∀ db : DbState, applyUnit db (rows.map DbWrite.insSpeaker)
      = { db with speakers := db.speakers ++ rows } := by
  induction rows with
  | nil => intro db; simp [applyUnit]
  | cons r rs ih =>
    intro db
    rw [List.map_cons, applyUnit, List.foldl_cons]
    have h := ih (applyWrite db (DbWrite.insSpeaker r))
    rw [applyUnit] at h
    rw [h]
    simp [applyWrite]

/-- Applying `deleteRecordingData` filters the recording's rows out of all
four child tables. -/
lemma applyUnits_deleteRecordingData (db : DbState) (rid : String) :
    applyUnits db (deleteRecordingDataUnits rid)
      = { db with
          segments := db.segments.filter (fun s => decide (s.recordingId ≠ rid)),
          speakers := db.speakers.filter (fun s => decide (s.recordingId ≠ rid)),
          videoFiles := db.videoFiles.filter (fun v => decide (v.recordingId ≠ rid)),
          chatMessages := db.chatMessages.filter (fun c => decide (c.recordingId ≠ rid)) } :=
  rfl

lemma applyUnits_upsertRecording (db : DbState) (now : Int) (ri : RecordingInput) :
    applyUnits db (upsertRecordingUnits now ri)
      = { db with recordings :=
            db.recordings.filter (fun x => decide (x.id ≠ ri.id))
              ++ [{ id := ri.id, title := ri.title, description := ri.description,
                    videoUrl := ri.videoUrl, duration := ri.duration, space := ri.space,
                    source := ri.source, mediaType := ri.mediaType,
                    mediaUrlExpiresAt := ri.mediaUrlExpiresAt, createdAt := ri.createdAt,
                    syncedAt := now }] } :=
  rfl

lemma filter_ne_then_eq {β : Type} (l : List β) (f : β → String) (rid : String) :
    (l.filter (fun s => decide (f s ≠ rid))).filter (fun s => decide (f s = rid)) = [] := by
  induction l with
  | nil => rfl
  | cons a l ih =>
    rw [List.filter_cons]
    by_cases h : f a = rid
    · rw [if_neg (by simp [h])]
      exact ih
    · rw [if_pos (by simp [h]), List.filter_cons, if_neg (by simp [h])]
      exact ih

lemma filter_eq_self_of_all {β : Type} (l : List β) (f : β → String) (rid : String)
    (h : ∀ x ∈ l, f x = rid) :
    l.filter (fun s => decide (f s = rid)) = l := by
  induction l with
  | nil => rfl
  | cons a l ih =>
    rw [List.filter_cons, if_pos (by simp [h a (by simp)])]
    rw [ih (fun x hx => h x (by simp [hx]))]

lemma segmentRows_recordingId (rid : String) (segs : List TranscriptSegment) :
    ∀ row ∈ segmentRows rid segs, row.recordingId = rid := by
  intro row hrow
  simp only [segmentRows, List.mem_map] at hrow
  obtain ⟨seg, _, hseg⟩ := hrow
  rw [← hseg]

lemma speakerRows_recordingId (rid : String) (spks : List Speaker) :
    ∀ row ∈ speakerRows rid spks, row.recordingId = rid := by
  intro row hrow
  simp only [speakerRows, List.mem_map] at hrow
  obtain ⟨spk, _, hspk⟩ := hrow
  rw [← hspk]

lemma applyUnits_insertSegments (db : DbState) (rid : String)
    (segs : List TranscriptSegment) :
    applyUnits db (insertSegmentsUnits rid segs)
      = { db with segments := db.segments ++ segmentRows rid segs } := by
  rw [insertSegmentsUnits]
  show applyUnit db ((segmentRows rid segs).map DbWrite.insSegment) = _
  exact applyUnit_insSegments _ db

lemma applyUnits_insertSpeakers (db : DbState) (rid : String)
    (spks : List Speaker) :
    applyUnits db (insertSpeakersUnits rid spks)
      = { db with speakers := db.speakers ++ speakerRows rid spks } := by
  rw [insertSpeakersUnits]
  show applyUnit db ((speakerRows rid spks).map DbWrite.insSpeaker) = _
  exact applyUnit_insSpeakers _ db

/-! ### C1: the Segment/Speaker insert pair is not atomic

The two bulk inserts are separate transactions.  The counterexample below
exhibits the commit boundary between them: stopping there leaves the new
Segment rows visible with no Speaker rows.  The amended theorem states what
does hold: each bulk insert is atomic on its own, the completed step stores
both row sets, and the crash point between the two inserts shows exactly
the Segments-without-Speakers state the claim rules out. -/

/-- Counterexample for C1.  For the concrete synced call `cdC1` (non-empty
segments and speakers), stopping after the sixth commit unit — the Segment
bulk insert — and before the seventh — the Speaker bulk insert — leaves a
state with the new Segment rows and no Speaker rows, refuting "both or
neither". -/
theorem segment_speaker_pair_counterexample :
    (processCall dbEmpty 0 cdC1 tmC1 false).result.synced = true
    ∧ 0 < (callSpeakers cdC1 tmC1).length
    ∧ (processCall dbEmpty 0 cdC1 tmC1 false).units.length = 7
    ∧ (applyUnits dbEmpty ((processCall dbEmpty 0 cdC1 tmC1 false).units.take 6)).segments.length = 1
    ∧ (applyUnits dbEmpty ((processCall dbEmpty 0 cdC1 tmC1 false).units.take 6)).speakers = []
    ∧ (applyUnits dbEmpty (processCall dbEmpty 0 cdC1 tmC1 false).units).speakers.length = 1 := by
  decide

/-- C1, amended.  For every synced per-call step with non-empty segments and
speakers, the commit units end with the Speaker bulk insert; stopping just
before it (immediately after the Segment bulk insert) exposes exactly the
new Segment rows for the recording and no Speaker rows, while running all
units stores both row sets.  Each bulk insert is one atomic unit, but the
pair is not atomic. -/
theorem segment_speaker_inserts_not_atomic_pair (db : DbState) (now : Int)
    (cd : CallData) (tm : List (String × GongCallTranscript)) (force : Bool)
    (hs : (processCall db now cd tm force).result.synced = true)
    (hseg : callSegments cd tm ≠ [])
    (hspk : callSpeakers cd tm ≠ []) :
    ∃ pre : List (List DbWrite),
      (processCall db now cd tm force).units
          = pre ++ insertSpeakersUnits ("gong_" ++ cd.metaData.id) (callSpeakers cd tm)
      ∧ segmentsFor (applyUnits db pre) ("gong_" ++ cd.metaData.id)
          = segmentRows ("gong_" ++ cd.metaData.id) (callSegments cd tm)
      ∧ speakersFor (applyUnits db pre) ("gong_" ++ cd.metaData.id) = []
      ∧ segmentsFor (applyUnits db (processCall db now cd tm force).units)
          ("gong_" ++ cd.metaData.id)
          = segmentRows ("gong_" ++ cd.metaData.id) (callSegments cd tm)
      ∧ speakersFor (applyUnits db (processCall db now cd tm force).units)
          ("gong_" ++ cd.metaData.id)
          = speakerRows ("gong_" ++ cd.metaData.id) (callSpeakers cd tm) := by
  obtain ⟨url, _hm, hunits⟩ := processCall_units_of_synced db now cd tm force hs
  rw [hunits, if_pos (List.length_pos.mpr hseg), if_pos (List.length_pos.mpr hspk)]
  refine ⟨_, rfl, ?_, ?_, ?_, ?_⟩
  · rw [applyUnits_append, applyUnits_append, applyUnits_upsertRecording,
      applyUnits_deleteRecordingData, applyUnits_insertSegments]
    have h1 := filter_ne_then_eq db.segments (fun s => s.recordingId)
      ("gong_" ++ cd.metaData.id)
    have h2 := filter_eq_self_of_all
      (segmentRows ("gong_" ++ cd.metaData.id) (callSegments cd tm))
      (fun s => s.recordingId) ("gong_" ++ cd.metaData.id)
      (segmentRows_recordingId _ _)
    simp only at h1 h2
    simp only [segmentsFor, List.filter_append, h1, h2, List.nil_append]
  · rw [applyUnits_append, applyUnits_append, applyUnits_upsertRecording,
      applyUnits_deleteRecordingData, applyUnits_insertSegments]
    have h1 := filter_ne_then_eq db.speakers (fun s => s.recordingId)
      ("gong_" ++ cd.metaData.id)
    simp only at h1
    simp only [speakersFor, h1]
  · rw [applyUnits_append, applyUnits_append, applyUnits_append,
      applyUnits_upsertRecording, applyUnits_deleteRecordingData,
      applyUnits_insertSegments, applyUnits_insertSpeakers]
    have h1 := filter_ne_then_eq db.segments (fun s => s.recordingId)
      ("gong_" ++ cd.metaData.id)
    have h2 := filter_eq_self_of_all
      (segmentRows ("gong_" ++ cd.metaData.id) (callSegments cd tm))
      (fun s => s.recordingId) ("gong_" ++ cd.metaData.id)
      (segmentRows_recordingId _ _)
    simp only at h1 h2
    simp only [segmentsFor, List.filter_append, h1, h2, List.nil_append]
  · rw [applyUnits_append, applyUnits_append, applyUnits_append,
      applyUnits_upsertRecording, applyUnits_deleteRecordingData,
      applyUnits_insertSegments, applyUnits_insertSpeakers]
    have h1 := filter_ne_then_eq db.speakers (fun s => s.recordingId)
      ("gong_" ++ cd.metaData.id)
    have h2 := filter_eq_self_of_all
      (speakerRows ("gong_" ++ cd.metaData.id) (callSpeakers cd tm))
      (fun s => s.recordingId) ("gong_" ++ cd.metaData.id)
      (speakerRows_recordingId _ _)
    simp only at h1 h2
    simp only [speakersFor, List.filter_append, h1, h2, List.nil_append]

/-- Witness for the amended C1 at the concrete call `cdC1`. -/
theorem segment_speaker_inserts_not_atomic_pair_witness :
    ∃ pre : List (List DbWrite),
      (processCall dbEmpty 0 cdC1 tmC1 false).units
          = pre ++ insertSpeakersUnits ("gong_" ++ cdC1.metaData.id)
              (callSpeakers cdC1 tmC1)
      ∧ segmentsFor (applyUnits dbEmpty pre) ("gong_" ++ cdC1.metaData.id)
          = segmentRows ("gong_" ++ cdC1.metaData.id) (callSegments cdC1 tmC1)
      ∧ speakersFor (applyUnits dbEmpty pre) ("gong_" ++ cdC1.metaData.id) = []
      ∧ segmentsFor (applyUnits dbEmpty (processCall dbEmpty 0 cdC1 tmC1 false).units)
          ("gong_" ++ cdC1.metaData.id)
          = segmentRows ("gong_" ++ cdC1.metaData.id) (callSegments cdC1 tmC1)
      ∧ speakersFor (applyUnits dbEmpty (processCall dbEmpty 0 cdC1 tmC1 false).units)
          ("gong_" ++ cdC1.metaData.id)
          = speakerRows ("gong_" ++ cdC1.metaData.id) (callSpeakers cdC1 tmC1) :=
  segment_speaker_inserts_not_atomic_pair dbEmpty 0 cdC1 tmC1 false
    (by decide) (by decide) (by decide)

/-! ### C10: a processed call with no usable transcript erases stored data -/

/-- C10.  Every processed (synced) call whose transcript is absent from the
fetched map or has an empty entry list still deletes all existing Segment,
Speaker, VideoFile and ChatMessage rows of its recording and inserts no new
Segment or Speaker rows — there is no fallback to party-derived speakers, so
a forced or stale re-sync without the transcript erases the stored
transcript data. -/
theorem processCall_no_transcript_erases (db : DbState) (now : Int) (cd : CallData)
    (tm : List (String × GongCallTranscript)) (force : Bool)
    (hs : (processCall db now cd tm force).result.synced = true)
    (ht : lookupTranscript tm cd.metaData.id = none
          ∨ ∃ t, lookupTranscript tm cd.metaData.id = some t ∧ t.transcript = []) :
    segmentsFor (applyUnits db (processCall db now cd tm force).units)
        ("gong_" ++ cd.metaData.id) = []
    ∧ speakersFor (applyUnits db (processCall db now cd tm force).units)
        ("gong_" ++ cd.metaData.id) = []
    ∧ videoFilesFor (applyUnits db (processCall db now cd tm force).units)
        ("gong_" ++ cd.metaData.id) = []
    ∧ chatMessagesFor (applyUnits db (processCall db now cd tm force).units)
        ("gong_" ++ cd.metaData.id) = []
    ∧ (∀ u ∈ (processCall db now cd tm force).units, ∀ w ∈ u,
        (∀ row, w ≠ DbWrite.insSegment row) ∧ (∀ row, w ≠ DbWrite.insSpeaker row)) := by
  have hseg : callSegments cd tm = [] := by
    rcases ht with h | ⟨t, hl, htr⟩
    · simp [callSegments, h]
    · simp [callSegments, hl, htr]
  have hspk : callSpeakers cd tm = [] := by
    rw [callSpeakers, hseg]
    rfl
  obtain ⟨url, _hm, hunits⟩ := processCall_units_of_synced db now cd tm force hs
  rw [hseg, hspk] at hunits
  simp only [List.length_nil, lt_irrefl, if_false, List.append_nil] at hunits
  rw [hunits]
  refine ⟨?_, ?_, ?_, ?_, ?_⟩
  · rw [applyUnits_append, applyUnits_upsertRecording, applyUnits_deleteRecordingData]
    have h1 := filter_ne_then_eq db.segments (fun s => s.recordingId)
      ("gong_" ++ cd.metaData.id)
    simp only at h1
    simp only [segmentsFor, h1]
  · rw [applyUnits_append, applyUnits_upsertRecording, applyUnits_deleteRecordingData]
    have h1 := filter_ne_then_eq db.speakers (fun s => s.recordingId)
      ("gong_" ++ cd.metaData.id)
    simp only at h1
    simp only [speakersFor, h1]
  · rw [applyUnits_append, applyUnits_upsertRecording, applyUnits_deleteRecordingData]
    have h1 := filter_ne_then_eq db.videoFiles (fun v => v.recordingId)
      ("gong_" ++ cd.metaData.id)
    simp only at h1
    simp only [videoFilesFor, h1]
  · rw [applyUnits_append, applyUnits_upsertRecording, applyUnits_deleteRecordingData]
    have h1 := filter_ne_then_eq db.chatMessages (fun c => c.recordingId)
      ("gong_" ++ cd.metaData.id)
    simp only at h1
    simp only [chatMessagesFor, h1]
  · intro u hu w hw
    rw [List.mem_append] at hu
    rcases hu with hu | hu
    · simp only [upsertRecordingUnits, List.mem_singleton] at hu
      subst hu
      simp only [List.mem_singleton] at hw
      subst hw
      exact ⟨fun row => by simp, fun row => by simp⟩
    · simp only [deleteRecordingDataUnits, List.mem_cons, List.not_mem_nil,
        or_false] at hu
      rcases hu with h | h | h | h <;> subst h <;>
        · simp only [List.mem_singleton] at hw
          subst hw
          exact ⟨fun row => by simp, fun row => by simp⟩

/-- Witness for C10: the stale recording `gong_w10` loses its stored
segments, speakers, video files and chat messages, even though its party
records would have produced a fallback speaker. -/
theorem processCall_no_transcript_erases_witness :
    extractSpeakersFromParties (cdC10.parties.getD []) ≠ []
    ∧ (processCall dbC10 0 cdC10 [] false).result.synced = true
    ∧ segmentsFor (applyUnits dbC10 (processCall dbC10 0 cdC10 [] false).units)
        ("gong_" ++ cdC10.metaData.id) = []
    ∧ speakersFor (applyUnits dbC10 (processCall dbC10 0 cdC10 [] false).units)
        ("gong_" ++ cdC10.metaData.id) = []
    ∧ videoFilesFor (applyUnits dbC10 (processCall dbC10 0 cdC10 [] false).units)
        ("gong_" ++ cdC10.metaData.id) = []
    ∧ chatMessagesFor (applyUnits dbC10 (processCall dbC10 0 cdC10 [] false).units)
        ("gong_" ++ cdC10.metaData.id) = [] :=
  have h := processCall_no_transcript_erases dbC10 0 cdC10 [] false
    (by decide) (Or.inl (by decide))
  ⟨by decide, by decide, h.1, h.2.1, h.2.2.1, h.2.2.2.1⟩

/-! ### C7: unresolvable media URL — no write, but counted as failed -/

/-- Counterexample for C7.  The concrete call `cdC7` (a Video call without a
video URL) performs no write, but the run-end summary counts it as failed
(third counter), not as skipped (second counter): the skipped count of its
run is 0 and the failed count is 1, refuting "counted as skipped rather
than failed". -/
theorem media_unresolvable_counted_failed :
    (processCall dbEmpty 0 cdC7 [] false).units = []
    ∧ (processCall dbEmpty 0 cdC7 [] false).result.synced = false
    ∧ (processCall dbEmpty 0 cdC7 [] false).result.skipped = false
    ∧ (summarize [(processCall dbEmpty 0 cdC7 [] false).result]).2.1 = 0
    ∧ (summarize [(processCall dbEmpty 0 cdC7 [] false).result]).2.2 = 1 := by
  decide

/-- C7, amended.  A call whose media URL for its reported kind cannot be
resolved (and that is not freshness-skipped) performs no database write and
does not abort the run — the loop processes every remaining call — but the
run-end summary counts it as failed, not skipped. -/
theorem media_unresolvable_skip_with_warning (db : DbState) (now : Int)
    (cd : CallData) (tm : List (String × GongCallTranscript)) (force : Bool)
    (hskip : (!force && isRecentlySynced db ("gong_" ++ cd.metaData.id) now) = false)
    (hm : resolvedMediaUrl cd = none) :
    (processCall db now cd tm force).units = []
    ∧ (processCall db now cd tm force).result.synced = false
    ∧ (processCall db now cd tm force).result.skipped = false
    ∧ (∀ rs : List SyncResult,
        (summarize ((processCall db now cd tm force).result :: rs)).2.2
            = (summarize rs).2.2 + 1
        ∧ (summarize ((processCall db now cd tm force).result :: rs)).2.1
            = (summarize rs).2.1)
    ∧ (∀ rest : List CallData,
        (runCalls db now tm force (cd :: rest)).2.length = rest.length + 1) := by
  have hpc := processCall_media_none db now cd tm force hskip hm
  rw [hpc]
  refine ⟨rfl, rfl, rfl, ?_, ?_⟩
  · intro rs
    constructor
    · simp [summarize, List.countP_cons]
    · simp [summarize, List.countP_cons]
  · intro rest
    rw [runCalls_length now tm force (cd :: rest) db]
    simp

/-- Witness for the amended C7 at the concrete call `cdC7`. -/
theorem media_unresolvable_skip_with_warning_witness :
    ((!false && isRecentlySynced dbEmpty ("gong_" ++ cdC7.metaData.id) 0) = false)
    ∧ resolvedMediaUrl cdC7 = none
    ∧ (processCall dbEmpty 0 cdC7 [] false).units = []
    ∧ (summarize [(processCall dbEmpty 0 cdC7 [] false).result]).2.2
        = (summarize []).2.2 + 1 :=
  have h := media_unresolvable_skip_with_warning dbEmpty 0 cdC7 [] false
    (by decide) (by decide)
  ⟨by decide, by decide, h.1, (h.2.2.2.1 []).1⟩

/-! ### C9: missing credentials — early return, but not a failure -/

/-- Counterexample for C9.  With credentials missing the run indeed makes no
provider request and writes nothing, but `sync()` returns normally (the
promise resolves, exit code 0): `crashedWithError = false` refutes "the run
terminates as a failure" / "fatal ConfigurationError". -/
theorem missing_credentials_not_failure :
    (syncModel envC9).providerRequests = 0
    ∧ (syncModel envC9).dbUnits = []
    ∧ (syncModel envC9).finalDb = envC9.db
    ∧ (syncModel envC9).crashedWithError = false :=
  ⟨rfl, rfl, rfl, rfl⟩

/-- C9, amended.  When provider credentials are missing the run
short-circuits before any provider request or database write — no list,
transcript or auth request occurs and no row is written — but it terminates
gracefully (a logged warning and a normal return), not as a failure. -/
theorem missing_credentials_graceful_skip (env : SyncEnv)
    (h : env.gongConfigured = false) :
    syncModel env
      = { providerRequests := 0, dbUnits := [], finalDb := env.db, summary := none,
          crashedWithError := false } := by
  simp [syncModel, h]

/-- Witness for the amended C9 at the concrete environment `envC9`. -/
theorem missing_credentials_graceful_skip_witness :
    envC9.gongConfigured = false
    ∧ syncModel envC9
        = { providerRequests := 0, dbUnits := [], finalDb := envC9.db, summary := none,
            crashedWithError := false } :=
  ⟨rfl, missing_credentials_graceful_skip envC9 rfl⟩

end WorkTV
